import Mathlib

/-
Verification development for the FSLTL batch converter
(scripts/convert_fsltl_batch.py).

The Python script is shallowly embedded below.  Conventions:

* Byte strings are `List Nat` (each entry is one byte value).
* Python dicts parsed from glTF JSON become structures; a field the code
  accesses through `dict.get(key, default)` is modelled as `Option`,
  a field whose absence would make the code raise `KeyError` (and which the
  glTF format requires) is modelled as a plain field.
* Filesystem access and the image codec are externalised: the bytes that
  would be read from the `.bin` file and the PNG bytes produced for each
  image entry are parameters of the embedded functions.
* Python exceptions become `Except ConvErr`; the float16 → float32 widening
  performed via numpy is embedded exactly at the bit level.
* Fields of the scene document that the script only copies through
  (materials, textures, extension lists, nodes, scenes, …) are not modelled:
  no claim under verification mentions them and no modelled step reads them.
-/

set_option maxHeartbeats 1000000

namespace TowercabFsltl

/-! ## Scene-document data model (the glTF fields the script touches) -/

structure GBuffer where
  uri : Option String
  byteLength : Nat
deriving DecidableEq

structure GBufferView where
  buffer : Nat
  byteOffset : Option Nat
  byteLength : Nat
  byteStride : Option Nat
deriving DecidableEq

structure GAccessor where
  bufferView : Option Nat
  byteOffset : Option Nat
  componentType : Nat
  count : Nat
  type : String
  normalized : Option Bool
  min : Option (List Int)
  max : Option (List Int)
deriving DecidableEq

structure GAttributes where
  position : Option Nat
  texcoord0 : Option Nat
  texcoord1 : Option Nat
  color0 : Option Nat
  normal : Option Nat
  tangent : Option Nat
deriving DecidableEq

structure GPrimitive where
  attributes : GAttributes
deriving DecidableEq

structure GMesh where
  primitives : List GPrimitive
deriving DecidableEq

structure GImage where
  uri : Option String
  bufferView : Option Nat
  mimeType : Option String
deriving DecidableEq

structure GAnimation where
  name : Option String
deriving DecidableEq

structure Gltf where
  buffers : List GBuffer
  bufferViews : List GBufferView
  accessors : List GAccessor
  meshes : List GMesh
  images : List GImage
  animations : List GAnimation
deriving DecidableEq

/-! ## Python string primitives

`str.split(sep)`, `str.strip()` and `str.startswith` are modelled over
`List Char` (the built-in `String.splitOn` does not reduce in the kernel).
`pySplit` matches Python: `"a__b".split('_') = ['a','','b']`,
`"".split('_') = ['']`. -/

def pySplit (sep : Char) : List Char → List (List Char)
  | [] => [[]]
  | c :: rest =>
    let r := pySplit sep rest
    if c = sep then [] :: r
    else
      match r with
      | [] => [[c]]
      | g :: gs => (c :: g) :: gs

/-- `str.strip()`: drop whitespace from both ends. -/
def pyStrip (l : List Char) : List Char :=
  ((l.dropWhile Char.isWhitespace).reverse.dropWhile Char.isWhitespace).reverse

/-! ## `parse_model_name` (convert_fsltl_batch.py lines 690-722) -/

def parse_model_name (model_name : String) : String × Option String :=
  let name :=
    if ("FSLTL_".data).isPrefixOf model_name.data then model_name.data.drop 6
    else model_name.data
  let name := if ("FAIB_".data).isPrefixOf name then name.drop 5 else name
  let parts := pySplit '_' name
  if 1 ≤ parts.length then
    let aircraft_type := String.mk (pyStrip (parts.headD []))
    let code0 : Option (List Char) :=
      if 1 < parts.length then some (pyStrip (parts[1]?.getD [])) else none
    let airline_code : Option String :=
      match code0 with
      | none => none
      | some s =>
        if s = "ZZZZ".data ∨ s = "ZZZ".data ∨ s = [] then none
        else if s.contains '-' then
          some (String.mk (pyStrip ((pySplit '-' s).headD [])))
        else some (String.mk s)
    (aircraft_type, airline_code)
  else (String.mk (pyStrip model_name.data), none)

/-! ## GLB container serialization (convert_fsltl_batch.py lines 443-469) -/

/-- Append padding bytes of value `fill` until the length is a multiple of 4
(the `(4 - (len % 4)) % 4` computation of the script). -/
def pad4 (fill : Nat) (l : List Nat) : List Nat :=
  l ++ List.replicate ((4 - l.length % 4) % 4) fill

/-- `struct.pack('<I', n)`: little-endian 32-bit encoding. -/
def u32le (n : Nat) : List Nat :=
  [n % 256, n / 256 % 256, n / 65536 % 256, n / 16777216 % 256]

/-- `struct.pack('<4sII', b'glTF', 2, total_length)`. -/
def glbHeader (total : Nat) : List Nat :=
  [103, 108, 84, 70] ++ u32le 2 ++ u32le total

/-- `struct.pack('<II', length, chunkType)`. -/
def chunkHeader (len ty : Nat) : List Nat :=
  u32le len ++ u32le ty

/-- Lines 443-469 of `convert_single_gltf`: pad the JSON bytes with spaces and
the binary buffer with zero bytes to 4-byte multiples, build the 12-byte
header and the two 8-byte chunk headers, and concatenate the file.
`struct.pack('<I', total_length)` raises once `total_length` no longer fits
in 32 bits, in which case no file is written (`none`). -/
def writeGlb (jsonBytes binData : List Nat) : Option (List Nat × Nat) :=
  let jsonPadded := pad4 32 jsonBytes
  let binPadded := pad4 0 binData
  let total := 12 + 8 + jsonPadded.length + 8 + binPadded.length
  if total < 4294967296 then
    some (glbHeader total ++ chunkHeader jsonPadded.length 0x4E4F534A ++ jsonPadded
            ++ chunkHeader binPadded.length 0x004E4942 ++ binPadded, total)
  else none

/-! ## `_write_startup_error` (convert_fsltl_batch.py lines 39-58) -/

structure ConvertedEntry where
  modelName : String
  aircraftType : String
  airlineCode : Option String
  hasAnimations : Bool
  fileSize : Nat
deriving DecidableEq

/-- The JSON object `_write_startup_error` dumps to the progress file. -/
structure StartupRecord where
  status : String
  total : Nat
  completed : Nat
  current : Option String
  errors : List String
  converted : List ConvertedEntry
  startup_error : String
deriving DecidableEq

/-- `_write_startup_error(progress_file, error_msg, details)`: when a progress
file path is available, the record written to it; `none` when it is not.
(The print to stderr and the best-effort I/O guard are external effects.) -/
def write_startup_error (progress_file : Option String) (error_msg details : String) :
    Option StartupRecord :=
  let full_error := if details = "" then error_msg else error_msg ++ "\n" ++ details
  progress_file.map fun _ =>
    { status := "error"
      total := 0
      completed := 0
      current := none
      errors := [error_msg]
      converted := []
      startup_error := full_error }

/-! ## LOD selection (convert_fsltl_batch.py lines 554-609)

A model-directory scene file is a pair of its filename stem and its parsed
glTF document (the filesystem and JSON parsing are external). -/

structure SceneFile where
  stem : String
  gltf : Gltf
deriving DecidableEq

/-- Python's `needle in hay` substring test. -/
def strInfix (needle : List Char) : List Char → Bool
  | [] => needle.isEmpty
  | c :: t => needle.isPrefixOf (c :: t) || strInfix needle t

/-- `str.upper()` (the stems involved are ASCII). -/
def pyUpper (l : List Char) : List Char := l.map Char.toUpper

/-- `'INTERIOR' not in f.stem.upper()` (line 585). -/
def isExterior (f : SceneFile) : Bool :=
  !(strInfix "INTERIOR".data (pyUpper f.stem.data))

/-- Parse a maximal run of leading decimal digits (`int(match.group(1))`). -/
def digitsToNat (l : List Char) : Nat :=
  (l.takeWhile Char.isDigit).foldl (fun a c => a * 10 + (c.toNat - 48)) 0

/-- `re.search(r'LOD(\d+)', name)`: leftmost occurrence of `LOD` followed by
at least one digit; returns the number formed by the maximal digit run. -/
def findLod : List Char → Option Nat
  | [] => none
  | c :: rest =>
    match c, rest with
    | 'L', 'O' :: 'D' :: d :: _ =>
      if d.isDigit then some (digitsToNat (rest.drop 2))
      else findLod rest
    | _, _ => findLod rest

/-- `lod_sort_key` (lines 590-595): `(0, lodNumber)` when the uppercased stem
contains `LOD<digits>`, else `(1, 0)` so that such files sort last. -/
def lod_sort_key (f : SceneFile) : Nat × Nat :=
  match findLod (pyUpper f.stem.data) with
  | some n => (0, n)
  | none => (1, 0)

/-- Lexicographic `≤` on Python's sort keys. -/
def keyLe (a b : Nat × Nat) : Bool :=
  decide (a.1 < b.1 ∨ (a.1 = b.1 ∧ a.2 ≤ b.2))

/-- Stable insertion used to model Python's stable `list.sort(key=...)`:
a new element goes after every already-placed element of smaller-or-equal
key, so elements with equal keys keep their original relative order. -/
def insertByKey (x : SceneFile) : List SceneFile → List SceneFile
  | [] => [x]
  | y :: ys => if keyLe (lod_sort_key y) (lod_sort_key x) then y :: insertByKey x ys
               else x :: y :: ys

def sortByKey (l : List SceneFile) : List SceneFile :=
  l.foldl (fun acc x => insertByKey x acc) []

/-- `get_gltf_vertex_count` (lines 554-569): sum of POSITION-accessor counts
across all mesh primitives, skipping out-of-range accessor indices. -/
def get_gltf_vertex_count (g : Gltf) : Nat :=
  g.meshes.foldl
    (fun t m => m.primitives.foldl
      (fun t p =>
        match p.attributes.position with
        | some i =>
          if i < g.accessors.length then t + ((g.accessors[i]?.map GAccessor.count).getD 0)
          else t
        | none => t) t) 0

def MAX_PREFERRED_VERTICES : Nat := 40000

/-- The selection loop of `find_gltf_in_model_dir` (lines 601-607): return the
first file under the vertex threshold, or the file equal to
`exterior_gltf[-1]` (Python compares values, hence the `last` argument). -/
def pickLoop (last : Option SceneFile) : List SceneFile → Option SceneFile
  | [] => none
  | f :: rest =>
    if get_gltf_vertex_count f.gltf ≤ MAX_PREFERRED_VERTICES ∨ some f = last then some f
    else pickLoop last rest

/-- `find_gltf_in_model_dir` (lines 577-609) over the directory's scene files. -/
def find_gltf_in_model_dir (files : List SceneFile) : Option SceneFile :=
  match files with
  | [] => none
  | _ :: _ =>
    let exterior0 := files.filter isExterior
    let exterior := if exterior0.isEmpty then files else exterior0
    let sorted := sortByKey exterior
    match pickLoop sorted.getLast? sorted with
    | some f => some f
    | none => sorted.head?

/-- Modelled from the spec's words (§4.1 step 4), for comparison with
`find_gltf_in_model_dir`: exclude interior-named files, sort ascending by the
embedded LOD index (files without an index last), and pick the first file
whose approximate vertex count is at most 40,000, or the last file if none
qualifies. -/
def resolverSpecPick (files : List SceneFile) : Option SceneFile :=
  let exterior := files.filter isExterior
  let sorted := sortByKey exterior
  match sorted.find? (fun f => decide (get_gltf_vertex_count f.gltf ≤ 40000)) with
  | some f => some f
  | none => sorted.getLast?

/-! ### Demo directory for the concrete part of claim C5 -/

def demoAccessor (n : Nat) : GAccessor :=
  { bufferView := some 0, byteOffset := some 0, componentType := 5126, count := n,
    type := "VEC3", normalized := none, min := none, max := none }

def demoGltf (n : Nat) : Gltf :=
  { buffers := [{ uri := some "model.bin", byteLength := 0 }]
    bufferViews := []
    accessors := [demoAccessor n]
    meshes := [{ primitives := [{ attributes :=
      { position := some 0, texcoord0 := none, texcoord1 := none,
        color0 := none, normal := none, tangent := none } }] }]
    images := []
    animations := [] }

def demoLod0 : SceneFile := { stem := "FAIB_A320_LOD0", gltf := demoGltf 120000 }

def demoLod1 : SceneFile := { stem := "FAIB_A320_LOD1", gltf := demoGltf 80000 }

def demoLod2 : SceneFile := { stem := "FAIB_A320_LOD2", gltf := demoGltf 31000 }

/-! ## `convert_single_gltf` (convert_fsltl_batch.py lines 239-475)

The document-level transformation.  Python exceptions are modelled by
`Except ConvErr`; `.bin` file contents and the per-image PNG bytes produced by
`find_texture_file` / `convert_dds_to_png` (lines 268-289) are parameters. -/

inductive ConvErr where
  | fileNotFound (msg : String)
  | indexError
  | keyError (key : String)
  | valueError (pos bufLen : Nat)
  | structError
deriving DecidableEq

/-- `str(e)` for the exceptions the embedded code can raise. -/
def errMsg : ConvErr → String
  | .fileNotFound m => m
  | .indexError => "list index out of range"
  | .keyError k => k
  | .valueError p n =>
    s!"UV accessor reads past buffer end at position {p} (buffer size: {n})"
  | .structError => "argument out of range for 'I' format code"

/-- Exact bit-level widening of an IEEE half-precision value to single
precision (`float(np.frombuffer(..., dtype=np.float16)[0])` followed by
`struct.pack('<f', ...)`) — the widening is exact on every half value. -/
def f16ToF32Bits (h : Nat) : Nat :=
  let s := h / 32768 % 2
  let e := h / 1024 % 32
  let m := h % 1024
  if e = 0 then
    if m = 0 then s * 2147483648
    else
      let k := Nat.log2 m
      s * 2147483648 + (k + 103) * 8388608 + m * 2 ^ (23 - k) % 8388608
  else if e = 31 then s * 2147483648 + 255 * 8388608 + m * 8192
  else s * 2147483648 + (e + 112) * 8388608 + m * 8192

/-- Lines 330-333: reinterpret the four raw bytes as two little-endian
float16 values and emit them as two little-endian float32 values. -/
def f32PairBytes (raw : List Nat) : List Nat :=
  u32le (f16ToF32Bits (raw.getD 0 0 + 256 * raw.getD 1 0)) ++
  u32le (f16ToF32Bits (raw.getD 2 0 + 256 * raw.getD 3 0))

/-- `detect_animations` (lines 229-236). -/
def detect_animations (g : Gltf) : Bool :=
  g.animations.any fun a =>
    let n := (a.name.getD "").data.map Char.toLower
    strInfix "gear".data n || strInfix "landing".data n || strInfix "wheel".data n

/-- Lines 305-308: drop the problematic attributes from one primitive. -/
def stripAttrs (a : GAttributes) : GAttributes :=
  { a with color0 := none, texcoord1 := none, normal := none, tangent := none }

/-- Lines 300-303 for one primitive: record a first-seen `TEXCOORD_0`
accessor index (`if acc_idx not in uv_accessors: uv_accessors[acc_idx] =
accessors[acc_idx]`), raising `IndexError` exactly where `accessors[acc_idx]`
would. -/
def stepUv (accessors : List GAccessor) (uvs : List (Nat × GAccessor)) :
    Option Nat → Except ConvErr (List (Nat × GAccessor))
  | some i =>
    if uvs.any fun q => q.1 = i then .ok uvs
    else
      match accessors[i]? with
      | some a => .ok (uvs ++ [(i, a)])
      | none => .error .indexError
  | none => .ok uvs

/-- Lines 296-308 for the primitives of one mesh: collect first-seen
`TEXCOORD_0` accessors and delete `COLOR_0`, `TEXCOORD_1`, `NORMAL`
and `TANGENT` from every primitive. -/
def collectPrims (accessors : List GAccessor) (uvs : List (Nat × GAccessor)) :
    List GPrimitive → Except ConvErr (List GPrimitive × List (Nat × GAccessor))
  | [] => .ok ([], uvs)
  | p :: ps =>
    match stepUv accessors uvs p.attributes.texcoord0 with
    | .error e => .error e
    | .ok uvs' =>
      match collectPrims accessors uvs' ps with
      | .error e => .error e
      | .ok (ps', uvs'') => .ok ({ p with attributes := stripAttrs p.attributes } :: ps', uvs'')

/-- Lines 296-308 over all meshes. -/
def collectMeshes (accessors : List GAccessor) (uvs : List (Nat × GAccessor)) :
    List GMesh → Except ConvErr (List GMesh × List (Nat × GAccessor))
  | [] => .ok ([], uvs)
  | m :: ms =>
    match collectPrims accessors uvs m.primitives with
    | .error e => .error e
    | .ok (ps', uvs') =>
      match collectMeshes accessors uvs' ms with
      | .error e => .error e
      | .ok (ms', uvs'') => .ok ({ primitives := ps' } :: ms', uvs'')

/-- The inner loop of lines 325-333: element `i` onwards (`remaining` left),
with the bounds check of line 328 before every 4-byte read. -/
def readUVGo (bin : List Nat) (offset stride : Nat) (out : List Nat) (i : Nat) :
    Nat → Except ConvErr (List Nat)
  | 0 => .ok out
  | r + 1 =>
    let pos := offset + i * stride
    if pos + 4 > bin.length then .error (.valueError pos bin.length)
    else readUVGo bin offset stride (out ++ f32PairBytes ((bin.drop pos).take 4)) (i + 1) r

def readUVs (bin : List Nat) (offset stride count : Nat) : Except ConvErr (List Nat) :=
  readUVGo bin offset stride [] 0 count

/-- One entry of `uv_accessor_mapping` (lines 335-338), keyed by the accessor
index. -/
structure UvMap where
  idx : Nat
  off : Nat
  count : Nat
deriving DecidableEq

/-- Lines 314-338: walk the collected `TEXCOORD_0` accessors in insertion
order; skip those whose component type is not 5122; for the rest resolve the
buffer view (`KeyError` / `IndexError` where Python would raise), read and
widen the float16 pairs, and record the mapping entry. -/
def buildUv (bvs : List GBufferView) (bin : List Nat) :
    List (Nat × GAccessor) → List Nat → List UvMap →
    Except ConvErr (List Nat × List UvMap)
  | [], data, maps => .ok (data, maps)
  | (idx, a) :: rest, data, maps =>
    if a.componentType ≠ 5122 then buildUv bvs bin rest data maps
    else
      match a.bufferView with
      | none => .error (.keyError "bufferView")
      | some j =>
        match bvs[j]? with
        | none => .error .indexError
        | some bv =>
          match readUVs bin (bv.byteOffset.getD 0 + a.byteOffset.getD 0)
              (bv.byteStride.getD 4) a.count with
          | .error e => .error e
          | .ok bytes =>
            buildUv bvs bin rest (data ++ bytes) (maps ++ [⟨idx, data.length, a.count⟩])

/-- Lines 346-364: append each converted PNG to the buffer (4-byte aligning
after each), add one buffer view per image, and repoint `images[i]` at it. -/
def appendImagesGo : List GBufferView → List GImage → List Nat → Nat →
    List (List Nat) → List GBufferView × List GImage × List Nat
  | bvs, imgs, bin, _, [] => (bvs, imgs, bin)
  | bvs, imgs, bin, i, d :: ds =>
    appendImagesGo
      (bvs ++ [{ buffer := 0, byteOffset := some bin.length, byteLength := d.length,
                 byteStride := none }])
      (imgs.set i { uri := none, bufferView := some bvs.length, mimeType := some "image/png" })
      (pad4 0 (bin ++ d)) (i + 1) ds

/-- Lines 384-391: repoint every mapped accessor at the new UV buffer view
with component type FLOAT, clear `normalized`, drop `min`/`max`. -/
def applyUvMaps (uvBvIdx : Nat) (accs : List GAccessor) (maps : List UvMap) :
    List GAccessor :=
  maps.foldl
    (fun accs m =>
      match accs[m.idx]? with
      | some a => accs.set m.idx
          { a with bufferView := some uvBvIdx, byteOffset := some m.off,
                   componentType := 5126, normalized := some false,
                   min := none, max := none }
      | none => accs) accs

/-- Is `uri` a Python-truthy string? (`.get('uri', '')` then `if uri:`) -/
def truthyUri : Option String → Bool
  | none => false
  | some s => decide (s ≠ "")

/-- Lines 340-394 (the part after the UV loop has succeeded): append the
converted images (`imgBytes i` stands for the PNG bytes — converted texture
or placeholder — produced for image `i` by lines 268-289) and the widened UV
region to the buffer with 4-byte alignment, create the new buffer views,
rewrite the mapped accessors, and replace the buffer list. -/
def convertTail (g : Gltf) (imgBytes : Nat → List Nat) (meshes' : List GMesh)
    (bin : List Nat) (newUvData : List Nat) (maps : List UvMap) :
    Gltf × List Nat × Bool :=
  let imageBuffers : List (List Nat) :=
    (g.images.enum.filter fun q => truthyUri q.2.uri).map fun q => imgBytes q.1
  let bin1 := pad4 0 bin
  let abi := appendImagesGo g.bufferViews g.images bin1 0 imageBuffers
  let uvStart := abi.2.2.length
  let bin3 := pad4 0 (abi.2.2 ++ newUvData)
  let uvBvIdx := abi.1.length
  let bvs2 := abi.1 ++ [{ buffer := 0, byteOffset := some uvStart,
                          byteLength := newUvData.length, byteStride := none }]
  let accs1 := applyUvMaps uvBvIdx g.accessors maps
  ({ g with buffers := [{ uri := none, byteLength := bin3.length }],
            bufferViews := bvs2, accessors := accs1,
            meshes := meshes', images := abi.2.1 }, bin3, detect_animations g)

/-- The in-memory document transformation of `convert_single_gltf`
(lines 250-394): load the external buffer (empty when the first buffer entry
has no truthy `uri`), collect and repair the `TEXCOORD_0` accessors, then
apply `convertTail`.  Returns the rewritten document, the final binary
buffer, and the animation flag. -/
def convertDoc (g : Gltf) (binFile : List Nat) (imgBytes : Nat → List Nat) :
    Except ConvErr (Gltf × List Nat × Bool) :=
  match g.buffers.head? with
  | none => .error .indexError
  | some b0 =>
    let bin : List Nat := if truthyUri b0.uri then binFile else []
    match collectMeshes g.accessors [] g.meshes with
    | .error e => .error e
    | .ok (meshes', uvs) =>
      match buildUv g.bufferViews bin uvs [] [] with
      | .error e => .error e
      | .ok (newUvData, maps) => .ok (convertTail g imgBytes meshes' bin newUvData maps)

/-- Successful result of `convert_single_gltf` (lines 471-475). -/
structure ConvOk where
  has_animations : Bool
  output_size : Nat
  fileBytes : List Nat
deriving DecidableEq

/-- `convert_single_gltf`: document transformation followed by GLB
serialization.  `jsonSer` stands for `json.dumps(...).encode('utf-8')` on the
rewritten document, which is not computed inside the model. -/
def convert_single_gltf (g : Gltf) (binFile : List Nat) (imgBytes : Nat → List Nat)
    (jsonSer : Gltf → List Nat) : Except ConvErr ConvOk :=
  match convertDoc g binFile imgBytes with
  | .error e => .error e
  | .ok (g', bin', anim) =>
    match writeGlb (jsonSer g') bin' with
    | some (file, total) =>
      .ok { has_animations := anim, output_size := total, fileBytes := file }
    | none => .error .structError

/-! ## `convert_model_task` (lines 731-770)

The filesystem side of the task — whether `SimObjects/Airplanes/<name>`
exists and what `find_model_gltf` resolves — is an environment parameter. -/

structure ResolvedInput where
  gltf : Gltf
  binFile : List Nat
  imgBytes : Nat → List Nat

structure TaskEnv where
  dirExists : Bool
  resolved : Option ResolvedInput

/-- The result dict of `convert_model_task`.  The failure dict of lines
765-770 carries only name/success/error/traceback; the remaining fields are
the defaults the callers' `result.get(..., default)` would produce. -/
structure TaskResult where
  model_name : String
  success : Bool
  error : Option String
  traceback : Option String
  output_size : Nat
  has_animations : Bool
  aircraft_type : String
  airline_code : Option String

/-- `traceback.format_exc()` — environment-dependent text; the model keeps a
non-empty diagnostic derived from the message. -/
def tracebackText (m : String) : String :=
  "Traceback (most recent call last): " ++ m

def taskFail (n m : String) : TaskResult :=
  { model_name := n, success := false, error := some m,
    traceback := some (tracebackText m), output_size := 0,
    has_animations := false, aircraft_type := "", airline_code := none }

def convert_model_task (model_name : String) (env : TaskEnv)
    (jsonSer : Gltf → List Nat) : TaskResult :=
  if env.dirExists = false then
    taskFail model_name
      s!"Aircraft directory not found: SimObjects/Airplanes/{model_name}"
  else
    match env.resolved with
    | none =>
      taskFail model_name
        s!"No GLTF file found for {model_name} (checked base_container if livery)"
    | some r =>
      let pm := parse_model_name model_name
      match convert_single_gltf r.gltf r.binFile r.imgBytes jsonSer with
      | .ok okr =>
        { model_name := model_name, success := true, error := none, traceback := none,
          output_size := okr.output_size, has_animations := okr.has_animations,
          aircraft_type := pm.1, airline_code := pm.2 }
      | .error e => taskFail model_name (errMsg e)

/-- `find_model_gltf` found something and the aircraft directory exists. -/
def resolvable (e : TaskEnv) : Bool := e.dirExists && e.resolved.isSome

/-! ## The progress record of `main` (lines 858-958) -/

structure Progress where
  status : String
  total : Nat
  completed : Nat
  current : Option String
  errors : List String
  converted : List ConvertedEntry
deriving DecidableEq

/-- Lines 860-867: the initial progress record (written immediately). -/
def initProgress (n : Nat) : Progress :=
  { status := "converting", total := n, completed := 0, current := none,
    errors := [], converted := [] }

def mkConverted (r : TaskResult) : ConvertedEntry :=
  { modelName := r.model_name, aircraftType := r.aircraft_type,
    airlineCode := r.airline_code, hasAnimations := r.has_animations,
    fileSize := r.output_size }

/-- One iteration of the completion loop (lines 901-932): bump the completed
counter, set the current label, and append to `converted` or `errors`. -/
def progressStep (p : Progress) (r : TaskResult) : Progress :=
  let p1 := { p with completed := p.completed + 1, current := some r.model_name }
  if r.success then { p1 with converted := p1.converted ++ [mkConverted r] }
  else { p1 with errors := p1.errors ++ [r.model_name ++ ": " ++ r.error.getD "Unknown error"] }

/-- Lines 954-956: the final status and the cleared current label. -/
def finalizeProgress (p : Progress) : Progress :=
  { p with status := if p.errors = [] then "complete" else "error", current := none }

/-- The whole batch (worker completion order is the list order — the pool
makes it arbitrary, and the claims hold for every order). -/
def runBatch (tasks : List (String × TaskEnv)) (jsonSer : Gltf → List Nat) : Progress :=
  finalizeProgress
    ((tasks.map fun t => convert_model_task t.1 t.2 jsonSer).foldl progressStep
      (initProgress tasks.length))

/-- One completion step of the loop as observed through the progress file:
apply `progressStep` and snapshot the record when the debounce fires. -/
def writeStep (flush : Nat → Bool) (st : Progress × List Progress)
    (ri : Nat × TaskResult) : Progress × List Progress :=
  let p' := progressStep st.1 ri.2
  (p', if flush ri.1 then st.2 ++ [p'] else st.2)

/-- The sequence of progress records written to the progress file during one
run of `main`: the unconditional initial write (line 871), the debounced
per-completion writes (`update_progress`, modelled by the `flush` oracle
since they depend on wall-clock time), and the unconditional final write
(line 958). -/
def mainWrites (tasks : List (String × TaskEnv)) (jsonSer : Gltf → List Nat)
    (flush : Nat → Bool) : List Progress :=
  let results := tasks.map fun t => convert_model_task t.1 t.2 jsonSer
  let st := results.enum.foldl (writeStep flush) (initProgress tasks.length, [])
  initProgress tasks.length :: st.2 ++ [finalizeProgress st.1]

/-! ### Demo batch for the C4 witness -/

def demoOkGltf : Gltf :=
  { buffers := [{ uri := none, byteLength := 0 }], bufferViews := [],
    accessors := [], meshes := [], images := [], animations := [] }

def demoOkEnv : TaskEnv :=
  { dirExists := true,
    resolved := some { gltf := demoOkGltf, binFile := [], imgBytes := fun _ => [] } }

def demoBadEnv : TaskEnv := { dirExists := true, resolved := none }

def demoSer : Gltf → List Nat := fun _ => []

def demoTasks : List (String × TaskEnv) :=
  [("FSLTL_B738_AAL", demoOkEnv), ("FSLTL_A320_UAL", demoBadEnv)]

def demoC8Tasks : List (String × TaskEnv) := [("FSLTL_A320_UAL", demoBadEnv)]

/-! ## Well-formedness predicates for the converter claims -/

/-- Every `TEXCOORD_0` attribute names an accessor inside the list
(otherwise line 303 raises `IndexError` before the UV loop runs). -/
def validTexIndices (g : Gltf) : Bool :=
  g.meshes.all fun m => m.primitives.all fun p =>
    match p.attributes.texcoord0 with
    | some i => decide (i < g.accessors.length)
    | none => true

/-- Every component-type-5122 accessor names a buffer view inside the list
(otherwise line 318 raises `KeyError` / `IndexError`). -/
def validUvBufferViews (g : Gltf) : Bool :=
  g.accessors.all fun a =>
    if a.componentType == 5122 then
      match a.bufferView with
      | some j => decide (j < g.bufferViews.length)
      | none => false
    else true

/-- Does the UV loop of lines 325-333 hit the bounds check for accessor `a`:
is `a` typed 5122 with some element read position past the end of `bin`? -/
def entryViol (bvs : List GBufferView) (bin : List Nat) (a : GAccessor) : Bool :=
  a.componentType == 5122 &&
    match a.bufferView with
    | some j =>
      match bvs[j]? with
      | some bv =>
        (List.range a.count).any fun k =>
          decide (bv.byteOffset.getD 0 + a.byteOffset.getD 0 + k * bv.byteStride.getD 4
            + 4 > bin.length)
      | none => false
    | none => false

/-- Some `TEXCOORD_0`-referenced accessor triggers the bounds check. -/
def hasUvViolation (g : Gltf) (bin : List Nat) : Bool :=
  g.meshes.any fun m => m.primitives.any fun p =>
    match p.attributes.texcoord0 with
    | some i =>
      match g.accessors[i]? with
      | some a => entryViol g.bufferViews bin a
      | none => false
    | none => false

/-- Accessor `i` is referenced as a `TEXCOORD_0` attribute. -/
def referencedTex (g : Gltf) (i : Nat) : Bool :=
  g.meshes.any fun m => m.primitives.any fun p => p.attributes.texcoord0 == some i

/-- Some referenced 5122 texture-coordinate accessor has `count > 0`,
i.e. the UV loop would have to read from the buffer. -/
def needsUvRead (g : Gltf) : Bool :=
  g.meshes.any fun m => m.primitives.any fun p =>
    match p.attributes.texcoord0 with
    | some i =>
      match g.accessors[i]? with
      | some a => a.componentType == 5122 && decide (0 < a.count)
      | none => false
    | none => false

/-- The buffer `convert_single_gltf` loads (lines 259-266): the `.bin` file
bytes when the first buffer entry has a truthy `uri`, empty otherwise. -/
def effBin (g : Gltf) (binFile : List Nat) : List Nat :=
  match g.buffers.head? with
  | some b0 => if truthyUri b0.uri then binFile else []
  | none => []

/-! ### Concrete documents for the converter claims -/

def c3acc : GAccessor :=
  { bufferView := some 0, byteOffset := some 0, componentType := 5126, count := 1,
    type := "VEC2", normalized := some true, min := some [0], max := some [1] }

def c3b0 : GBuffer := { uri := none, byteLength := 8 }

def texPrim : GPrimitive :=
  { attributes :=
      { position := none, texcoord0 := some 0, texcoord1 := none,
        color0 := none, normal := none, tangent := none } }

def texMesh : GMesh := { primitives := [texPrim] }

def c3doc : Gltf :=
  { buffers := [c3b0]
    bufferViews := [{ buffer := 0, byteOffset := some 0, byteLength := 8,
                      byteStride := none }]
    accessors := [c3acc]
    meshes := [texMesh]
    images := []
    animations := [] }

def c3outDoc : Gltf :=
  { buffers := [{ uri := none, byteLength := 0 }]
    bufferViews := [{ buffer := 0, byteOffset := some 0, byteLength := 8,
                      byteStride := none },
                    { buffer := 0, byteOffset := some 0, byteLength := 0,
                      byteStride := none }]
    accessors := [c3acc]
    meshes := [texMesh]
    images := []
    animations := [] }

def c5acc : GAccessor :=
  { bufferView := some 0, byteOffset := some 0, componentType := 5122, count := 0,
    type := "VEC2", normalized := none, min := some [0], max := some [1] }

def c5doc : Gltf :=
  { buffers := [{ uri := none, byteLength := 0 }]
    bufferViews := [{ buffer := 0, byteOffset := some 0, byteLength := 0,
                      byteStride := none }]
    accessors := [c5acc]
    meshes := [texMesh]
    images := []
    animations := [] }

def c5accOut : GAccessor :=
  { bufferView := some 1, byteOffset := some 0, componentType := 5126, count := 0,
    type := "VEC2", normalized := some false, min := none, max := none }

def c5outDoc : Gltf :=
  { buffers := [{ uri := none, byteLength := 0 }]
    bufferViews := [{ buffer := 0, byteOffset := some 0, byteLength := 0,
                      byteStride := none },
                    { buffer := 0, byteOffset := some 0, byteLength := 0,
                      byteStride := none }]
    accessors := [c5accOut]
    meshes := [texMesh]
    images := []
    animations := [] }

def c2b0 : GBuffer := { uri := some "model.bin", byteLength := 4 }

def c2doc : Gltf :=
  { buffers := [c2b0]
    bufferViews := [{ buffer := 0, byteOffset := some 0, byteLength := 4,
                      byteStride := none }]
    accessors := [{ bufferView := some 0, byteOffset := some 0,
                    componentType := 5122, count := 1, type := "VEC2",
                    normalized := none, min := none, max := none }]
    meshes := [texMesh]
    images := []
    animations := [] }

/-! ## Theorems: C6, C1, C7 -/

/-- Claim C6: `parse_model_name` satisfies the four documented equations:
`FSLTL_B738_AAL ↦ (B738, AAL)`, `FSLTL_B738_ZZZZ ↦ (B738, none)`,
`FSLTL_FAIB_A320_UAL ↦ (A320, UAL)`, and `FSLTL_B738_AAL-Extra ↦ (B738, AAL)`. -/
theorem parse_model_name_examples :
    parse_model_name "FSLTL_B738_AAL" = ("B738", some "AAL") ∧
    parse_model_name "FSLTL_B738_ZZZZ" = ("B738", none) ∧
    parse_model_name "FSLTL_FAIB_A320_UAL" = ("A320", some "UAL") ∧
    parse_model_name "FSLTL_B738_AAL-Extra" = ("B738", some "AAL") := by
  refine ⟨?_, ?_, ?_, ?_⟩ <;> decide

/-- Claim C1: every successfully written GLB file is the 12-byte header,
the 8-byte JSON-chunk header, the padded JSON bytes, the 8-byte binary-chunk
header and the padded buffer bytes, in that order; both chunk lengths are
multiples of 4; and the `total_length` field of the header equals the exact
number of bytes written: `12 + 8 + len(json) + 8 + len(buffer)`. -/
theorem glb_container_layout (jsonBytes binData file : List Nat) (total : Nat)
    (h : writeGlb jsonBytes binData = some (file, total)) :
    file = glbHeader total ++ chunkHeader (pad4 32 jsonBytes).length 0x4E4F534A
             ++ pad4 32 jsonBytes
             ++ chunkHeader (pad4 0 binData).length 0x004E4942
             ++ pad4 0 binData ∧
    (pad4 32 jsonBytes).length % 4 = 0 ∧
    (pad4 0 binData).length % 4 = 0 ∧
    total = 12 + 8 + (pad4 32 jsonBytes).length + 8 + (pad4 0 binData).length ∧
    file.length = total := by
  unfold writeGlb at h
  by_cases hlt :
      12 + 8 + (pad4 32 jsonBytes).length + 8 + (pad4 0 binData).length < 4294967296
  · simp only [hlt, if_pos] at h
    obtain ⟨hfile, htotal⟩ := Prod.mk.injEq _ _ _ _ ▸ Option.some.injEq _ _ ▸ h
    subst htotal
    refine ⟨hfile.symm, ?_, ?_, rfl, ?_⟩
    · show (jsonBytes ++ List.replicate ((4 - jsonBytes.length % 4) % 4) 32).length % 4 = 0
      simp [List.length_append, List.length_replicate]
      omega
    · show (binData ++ List.replicate ((4 - binData.length % 4) % 4) 0).length % 4 = 0
      simp [List.length_append, List.length_replicate]
      omega
    · subst hfile
      simp [glbHeader, chunkHeader, u32le, List.length_append]
      omega
  · simp [hlt] at h

/-- Witness for C1 at a concrete input: the two-byte JSON document `"{}"` and
an empty buffer produce a 32-byte file whose header total equals 32. -/
theorem glb_container_layout_witness :
    writeGlb [123, 125] [] = some (glbHeader 32 ++ chunkHeader 4 0x4E4F534A
      ++ [123, 125, 32, 32] ++ chunkHeader 0 0x004E4942 ++ [], 32) ∧
    (pad4 32 [123, 125]).length % 4 = 0 ∧
    (pad4 0 ([] : List Nat)).length % 4 = 0 ∧
    (glbHeader 32 ++ chunkHeader 4 0x4E4F534A ++ [123, 125, 32, 32]
      ++ chunkHeader 0 0x004E4942 ++ []).length = 32 := by
  have h : writeGlb [123, 125] [] = some (glbHeader 32 ++ chunkHeader 4 0x4E4F534A
      ++ [123, 125, 32, 32] ++ chunkHeader 0 0x004E4942 ++ [], 32) := by decide
  obtain ⟨-, h2, h3, -, h5⟩ := glb_container_layout [123, 125] [] _ 32 h
  exact ⟨h, h2, h3, h5⟩

/-- A list is a boolean prefix of itself followed by anything. -/
theorem isPrefixOf_append_self (l t : List Char) : l.isPrefixOf (l ++ t) = true := by
  induction l with
  | nil => simp [List.isPrefixOf]
  | cons c l ih => simp [List.isPrefixOf, ih]

/-- A list is a boolean prefix of itself. -/
theorem isPrefixOf_self (l : List Char) : l.isPrefixOf l = true := by
  have h := isPrefixOf_append_self l []
  simp only [List.append_nil] at h
  exact h

/-- Claim C7: whenever `_write_startup_error` is given a progress-file path,
the record it writes has status `"error"`, zero totals, null current entry,
an empty converted list, exactly one error entry (the message), and a
`startup_error` field that carries the error message. -/
theorem startup_error_record (pf : Option String) (msg details : String)
    (r : StartupRecord) (h : write_startup_error pf msg details = some r) :
    r.status = "error" ∧ r.total = 0 ∧ r.completed = 0 ∧ r.current = none ∧
    r.converted = [] ∧ r.errors = [msg] ∧ r.errors.length = 1 ∧
    msg.data.isPrefixOf r.startup_error.data = true := by
  unfold write_startup_error at h
  cases pf with
  | none => simp at h
  | some p =>
    simp only [Option.map_some'] at h
    obtain rfl := (Option.some.injEq _ _).mp h
    refine ⟨rfl, rfl, rfl, rfl, rfl, rfl, rfl, ?_⟩
    show msg.data.isPrefixOf
      (if details = "" then msg else msg ++ "\n" ++ details).data = true
    by_cases hd : details = ""
    · rw [if_pos hd]
      exact isPrefixOf_self msg.data
    · rw [if_neg hd, String.data_append, String.data_append, List.append_assoc]
      exact isPrefixOf_append_self msg.data _

/-- Witness for C7 at a concrete input. -/
theorem startup_error_record_witness :
    (write_startup_error (some "progress.json") "boom" "trace").isSome = true ∧
    ((write_startup_error (some "progress.json") "boom" "trace").getD
      ⟨"", 0, 0, none, [], [], ""⟩).errors = ["boom"] := by
  have h : write_startup_error (some "progress.json") "boom" "trace" =
      some ⟨"error", 0, 0, none, ["boom"], [], "boom\ntrace"⟩ := by decide
  obtain ⟨-, -, -, -, -, h6, -, -⟩ :=
    startup_error_record (some "progress.json") "boom" "trace" _ h
  exact ⟨by rw [h]; rfl, by rw [h]; exact h6⟩

/-! ### Sorting permutes, so `Nodup` is preserved -/

theorem insertByKey_perm (x : SceneFile) (l : List SceneFile) :
    List.Perm (insertByKey x l) (x :: l) := by
  induction l with
  | nil => exact List.Perm.refl _
  | cons y ys ih =>
    unfold insertByKey
    by_cases h : keyLe (lod_sort_key y) (lod_sort_key x) = true
    · rw [if_pos h]
      exact (ih.cons y).trans (List.Perm.swap x y ys)
    · rw [if_neg h]

theorem sortByKey_perm (l : List SceneFile) : List.Perm (sortByKey l) l := by
  suffices h : ∀ acc, List.Perm (l.foldl (fun acc x => insertByKey x acc) acc) (acc ++ l) by
    have h0 := h []
    simpa using h0
  induction l with
  | nil => intro acc; simp
  | cons x xs ih =>
    intro acc
    simp only [List.foldl_cons]
    exact (ih (insertByKey x acc)).trans
      (((insertByKey_perm x acc).append_right xs).trans List.perm_middle.symm)

/-! ### The selection loop equals the spec's first-fit-or-last rule -/

theorem getLast?_mem' {α : Type} (l : List α) (x : α) (h : l.getLast? = some x) : x ∈ l := by
  induction l with
  | nil => simp at h
  | cons a as ih =>
    cases as with
    | nil =>
      simp only [List.getLast?_singleton, Option.some.injEq] at h
      simp [h]
    | cons b bs =>
      rw [List.getLast?_cons_cons] at h
      exact List.mem_cons_of_mem a (ih h)

theorem getLast?_of_ne_nil {α : Type} (l : List α) (h : l ≠ []) :
    ∃ y, l.getLast? = some y := by
  induction l with
  | nil => exact absurd rfl h
  | cons a as ih =>
    cases as with
    | nil => exact ⟨a, rfl⟩
    | cons b bs =>
      obtain ⟨y, hy⟩ := ih (by simp)
      exact ⟨y, by rw [List.getLast?_cons_cons]; exact hy⟩

theorem pickLoop_cons_take (last : Option SceneFile) (f : SceneFile) (rest : List SceneFile)
    (h : get_gltf_vertex_count f.gltf ≤ MAX_PREFERRED_VERTICES ∨ some f = last) :
    pickLoop last (f :: rest) = some f := by
  unfold pickLoop
  exact if_pos h

theorem pickLoop_cons_skip (last : Option SceneFile) (f : SceneFile) (rest : List SceneFile)
    (h : ¬ (get_gltf_vertex_count f.gltf ≤ MAX_PREFERRED_VERTICES ∨ some f = last)) :
    pickLoop last (f :: rest) = pickLoop last rest := by
  conv_lhs => unfold pickLoop
  exact if_neg h

theorem pickLoop_eq_spec (l : List SceneFile) (hnd : l.Nodup) (hne : l ≠ []) :
    pickLoop l.getLast? l =
      match l.find? (fun f => decide (get_gltf_vertex_count f.gltf ≤ 40000)) with
      | some f => some f
      | none => l.getLast? := by
  induction l with
  | nil => exact absurd rfl hne
  | cons x xs ih =>
    cases xs with
    | nil =>
      rw [show ([x] : List SceneFile).getLast? = some x from rfl]
      rw [pickLoop_cons_take (some x) x [] (Or.inr rfl)]
      cases hdec : decide (get_gltf_vertex_count x.gltf ≤ 40000) with
      | true => simp [List.find?, hdec]
      | false => simp [List.find?, hdec]
    | cons y ys =>
      have hxnot : x ∉ (y :: ys) := (List.nodup_cons.mp hnd).1
      have hlx : some x ≠ (x :: y :: ys).getLast? := by
        rw [List.getLast?_cons_cons]
        intro hcontra
        exact hxnot (getLast?_mem' _ x hcontra.symm)
      by_cases h : get_gltf_vertex_count x.gltf ≤ MAX_PREFERRED_VERTICES
      · rw [pickLoop_cons_take _ _ _ (Or.inl h)]
        have hdec : decide (get_gltf_vertex_count x.gltf ≤ 40000) = true :=
          decide_eq_true h
        simp [List.find?, hdec]
      · rw [pickLoop_cons_skip _ _ _ (by
          intro hor
          cases hor with
          | inl h1 => exact h h1
          | inr h2 => exact hlx h2)]
        have hdec : decide (get_gltf_vertex_count x.gltf ≤ 40000) = false :=
          decide_eq_false h
        rw [List.getLast?_cons_cons]
        have htail := ih (List.nodup_cons.mp hnd).2 (by simp)
        rw [htail]
        simp [List.find?, hdec]

/-- Claim C5: `find_gltf_in_model_dir` excludes interior-named scene files,
sorts the rest ascending by LOD index (no index sorts last), and returns the
first file with at most 40,000 vertices, or the last sorted file if none
qualifies (it agrees with the spec-side rule whenever the directory holds
distinct files and at least one exterior file); in particular a directory
with vertex counts LOD0 = 120000, LOD1 = 80000, LOD2 = 31000 yields LOD2. -/
theorem find_gltf_lod_selection :
    (∀ files : List SceneFile, files.Nodup → files.filter isExterior ≠ [] →
      find_gltf_in_model_dir files = resolverSpecPick files) ∧
    find_gltf_in_model_dir [demoLod0, demoLod1, demoLod2] = some demoLod2 := by
  constructor
  · intro files hnd hext
    have hfne : files ≠ [] := by
      intro h
      rw [h] at hext
      exact hext rfl
    obtain ⟨x, xs, rfl⟩ := List.exists_cons_of_ne_nil hfne
    show (let exterior0 := (x :: xs).filter isExterior
          let exterior := if exterior0.isEmpty then x :: xs else exterior0
          let sorted := sortByKey exterior
          match pickLoop sorted.getLast? sorted with
          | some f => some f
          | none => sorted.head?) = resolverSpecPick (x :: xs)
    have hemp : ((x :: xs).filter isExterior).isEmpty = false := by
      cases hc : (x :: xs).filter isExterior with
      | nil => exact absurd hc hext
      | cons a l => rfl
    simp only [hemp]
    have hite : (if (false : Bool) = true then x :: xs else (x :: xs).filter isExterior)
        = (x :: xs).filter isExterior := rfl
    rw [hite]
    set ext := (x :: xs).filter isExterior with hdef
    have hsnd : (sortByKey ext).Nodup :=
      (sortByKey_perm ext).nodup_iff.mpr (hnd.filter _)
    have hsne : sortByKey ext ≠ [] := by
      intro h
      have hlen := (sortByKey_perm ext).length_eq
      rw [h] at hlen
      exact hext (List.eq_nil_of_length_eq_zero hlen.symm)
    have hmain := pickLoop_eq_spec (sortByKey ext) hsnd hsne
    have hspec : resolverSpecPick (x :: xs) =
        match (sortByKey ext).find?
            (fun f => decide (get_gltf_vertex_count f.gltf ≤ 40000)) with
        | some f => some f
        | none => (sortByKey ext).getLast? := rfl
    rw [hmain, hspec]
    cases hfind : (sortByKey ext).find?
        (fun f => decide (get_gltf_vertex_count f.gltf ≤ 40000)) with
    | none =>
      obtain ⟨y, hy⟩ := getLast?_of_ne_nil (sortByKey ext) hsne
      rw [hy]
    | some f => rfl
  · decide

/-- Witness for C5's general clause at the demo directory. -/
theorem find_gltf_lod_selection_witness :
    ([demoLod0, demoLod1, demoLod2].Nodup ∧
      [demoLod0, demoLod1, demoLod2].filter isExterior ≠ []) ∧
    find_gltf_in_model_dir [demoLod0, demoLod1, demoLod2] =
      resolverSpecPick [demoLod0, demoLod1, demoLod2] := by
  refine ⟨⟨by decide, by decide⟩, ?_⟩
  exact find_gltf_lod_selection.1 [demoLod0, demoLod1, demoLod2] (by decide) (by decide)

/-! ## Claim C4: batch counters and final status -/

theorem progressStep_success (p : Progress) (r : TaskResult) (h : r.success = true) :
    progressStep p r =
      { p with completed := p.completed + 1, current := some r.model_name,
               converted := p.converted ++ [mkConverted r] } := by
  unfold progressStep
  rw [if_pos h]

theorem progressStep_failure (p : Progress) (r : TaskResult) (h : r.success = false) :
    progressStep p r =
      { p with completed := p.completed + 1, current := some r.model_name,
               errors := p.errors ++ [r.model_name ++ ": " ++ r.error.getD "Unknown error"] } := by
  unfold progressStep
  rw [if_neg (by rw [h]; exact Bool.false_ne_true)]

theorem progressStep_completed (p : Progress) (r : TaskResult) :
    (progressStep p r).completed = p.completed + 1 := by
  cases hs : r.success
  · rw [progressStep_failure p r hs]
  · rw [progressStep_success p r hs]

theorem progressStep_status (p : Progress) (r : TaskResult) :
    (progressStep p r).status = p.status := by
  cases hs : r.success
  · rw [progressStep_failure p r hs]
  · rw [progressStep_success p r hs]

theorem progressStep_total (p : Progress) (r : TaskResult) :
    (progressStep p r).total = p.total := by
  cases hs : r.success
  · rw [progressStep_failure p r hs]
  · rw [progressStep_success p r hs]

theorem progressStep_errors_length (p : Progress) (r : TaskResult) :
    (progressStep p r).errors.length =
      p.errors.length + (if r.success then 0 else 1) := by
  cases hs : r.success
  · rw [progressStep_failure p r hs]
    simp [hs]
  · rw [progressStep_success p r hs]
    simp [hs]

theorem progressStep_converted_length (p : Progress) (r : TaskResult) :
    (progressStep p r).converted.length =
      p.converted.length + (if r.success then 1 else 0) := by
  cases hs : r.success
  · rw [progressStep_failure p r hs]
    simp [hs]
  · rw [progressStep_success p r hs]
    simp [hs]

theorem finalize_errors (p : Progress) : (finalizeProgress p).errors = p.errors := rfl

theorem finalize_completed (p : Progress) :
    (finalizeProgress p).completed = p.completed := rfl

theorem finalize_converted (p : Progress) :
    (finalizeProgress p).converted = p.converted := rfl

theorem finalize_status (p : Progress) :
    (finalizeProgress p).status = if p.errors = [] then "complete" else "error" := rfl

theorem foldl_completed (rs : List TaskResult) (p : Progress) :
    (rs.foldl progressStep p).completed = p.completed + rs.length := by
  induction rs generalizing p with
  | nil => simp
  | cons r rs ih =>
    rw [List.foldl_cons, ih (progressStep p r), progressStep_completed]
    simp
    omega

theorem foldl_status (rs : List TaskResult) (p : Progress) :
    (rs.foldl progressStep p).status = p.status := by
  induction rs generalizing p with
  | nil => rfl
  | cons r rs ih =>
    rw [List.foldl_cons, ih (progressStep p r), progressStep_status]

theorem foldl_errors_length (rs : List TaskResult) (p : Progress) :
    (rs.foldl progressStep p).errors.length =
      p.errors.length + (rs.filter fun r => !r.success).length := by
  induction rs generalizing p with
  | nil => simp
  | cons r rs ih =>
    rw [List.foldl_cons, ih (progressStep p r), progressStep_errors_length,
      List.filter_cons]
    cases hs : r.success
    · simp [hs]
      try omega
    · simp [hs]
      try omega

theorem foldl_converted_length (rs : List TaskResult) (p : Progress) :
    (rs.foldl progressStep p).converted.length =
      p.converted.length + (rs.filter fun r => r.success).length := by
  induction rs generalizing p with
  | nil => simp
  | cons r rs ih =>
    rw [List.foldl_cons, ih (progressStep p r), progressStep_converted_length,
      List.filter_cons]
    cases hs : r.success
    · simp [hs]
      try omega
    · simp [hs]
      try omega

theorem task_of_unresolvable (n : String) (env : TaskEnv) (ser : Gltf → List Nat)
    (h : resolvable env = false) :
    (convert_model_task n env ser).success = false := by
  unfold convert_model_task
  cases hd : env.dirExists with
  | false =>
    rw [if_pos rfl]
    rfl
  | true =>
    rw [if_neg (by simp)]
    have hr : env.resolved = none := by
      unfold resolvable at h
      rw [hd] at h
      simp only [Bool.true_and] at h
      cases henv : env.resolved with
      | none => rfl
      | some r =>
        rw [henv] at h
        simp at h
    rw [hr]
    rfl

theorem length_filter_partition {α : Type} (p : α → Bool) (l : List α) :
    (l.filter p).length + (l.filter fun a => !(p a)).length = l.length := by
  induction l with
  | nil => simp
  | cons a l ih =>
    rw [List.filter_cons, List.filter_cons]
    cases hp : p a <;> simp [hp] <;> omega

/-- Claim C4: a batch of N tasks of which exactly K fail to resolve a scene
file (and whose remaining tasks convert successfully) ends with
`completed = N`, K error entries, N−K converted entries, and final status
`"error"` when K > 0, `"complete"` when K = 0. -/
theorem batch_counts_and_status (tasks : List (String × TaskEnv))
    (jsonSer : Gltf → List Nat)
    (hs : ∀ t ∈ tasks, resolvable t.2 = true →
      (convert_model_task t.1 t.2 jsonSer).success = true) :
    (runBatch tasks jsonSer).completed = tasks.length ∧
    (runBatch tasks jsonSer).errors.length =
      (tasks.filter fun t => !(resolvable t.2)).length ∧
    (runBatch tasks jsonSer).converted.length =
      tasks.length - (tasks.filter fun t => !(resolvable t.2)).length ∧
    (runBatch tasks jsonSer).status =
      (if (tasks.filter fun t => !(resolvable t.2)).length = 0
       then "complete" else "error") := by
  have hpoint : ∀ t ∈ tasks,
      (convert_model_task t.1 t.2 jsonSer).success = resolvable t.2 := by
    intro t ht
    cases hr : resolvable t.2 with
    | true => exact hs t ht hr
    | false => exact task_of_unresolvable t.1 t.2 jsonSer hr
  set rs := tasks.map fun t => convert_model_task t.1 t.2 jsonSer with hrs
  have hfail : (rs.filter fun r => !r.success).length =
      (tasks.filter fun t => !(resolvable t.2)).length := by
    rw [hrs, ← List.countP_eq_length_filter, ← List.countP_eq_length_filter,
      List.countP_map]
    exact List.countP_congr (by
      intro t ht
      simp only [Function.comp_apply, hpoint t ht])
  have hsucc : (rs.filter fun r => r.success).length =
      (tasks.filter fun t => resolvable t.2).length := by
    rw [hrs, ← List.countP_eq_length_filter, ← List.countP_eq_length_filter,
      List.countP_map]
    exact List.countP_congr (by
      intro t ht
      simp only [Function.comp_apply, hpoint t ht])
  have hlen : rs.length = tasks.length := by rw [hrs, List.length_map]
  have hpart := length_filter_partition (fun t => resolvable t.2) tasks
  have hrun : runBatch tasks jsonSer =
      finalizeProgress (rs.foldl progressStep (initProgress tasks.length)) := rfl
  have herr : (runBatch tasks jsonSer).errors.length =
      (tasks.filter fun t => !(resolvable t.2)).length := by
    rw [hrun, finalize_errors, foldl_errors_length, hfail]
    simp [initProgress]
  refine ⟨?_, herr, ?_, ?_⟩
  · rw [hrun, finalize_completed, foldl_completed, hlen]
    simp [initProgress]
  · rw [hrun, finalize_converted, foldl_converted_length, hsucc]
    show 0 + (tasks.filter fun t => resolvable t.2).length = _
    omega
  · rw [hrun, finalize_status]
    by_cases hk : (tasks.filter fun t => !(resolvable t.2)).length = 0
    · rw [if_pos hk, if_pos]
      apply List.eq_nil_of_length_eq_zero
      have h2 := foldl_errors_length rs (initProgress tasks.length)
      rw [hfail, hk] at h2
      rw [h2]
      simp [initProgress]
    · rw [if_neg hk, if_neg]
      intro hnil
      apply hk
      have h2 := foldl_errors_length rs (initProgress tasks.length)
      rw [hfail, hnil] at h2
      simp only [List.length_nil, initProgress] at h2
      omega

/-- Witness for C4 at a concrete two-task batch with one resolution failure. -/
theorem batch_counts_and_status_witness :
    (∀ t ∈ demoTasks, resolvable t.2 = true →
      (convert_model_task t.1 t.2 demoSer).success = true) ∧
    (runBatch demoTasks demoSer).completed = 2 ∧
    (runBatch demoTasks demoSer).errors.length = 1 ∧
    (runBatch demoTasks demoSer).converted.length = 1 ∧
    (runBatch demoTasks demoSer).status = "error" := by
  have hhyp : ∀ t ∈ demoTasks, resolvable t.2 = true →
      (convert_model_task t.1 t.2 demoSer).success = true := by
    intro t ht
    rcases List.mem_cons.mp ht with rfl | ht2
    · intro _
      rfl
    · rcases List.mem_singleton.mp ht2 with rfl
      intro hres
      simp [resolvable, demoBadEnv] at hres
  obtain ⟨h1, h2, h3, h4⟩ := batch_counts_and_status demoTasks demoSer hhyp
  refine ⟨hhyp, ?_, ?_, ?_, ?_⟩
  · rw [h1]
    rfl
  · rw [h2]
    rfl
  · rw [h3]
    rfl
  · rw [h4]
    rfl

/-! ## Claim C8: the status values observable through the progress file -/

theorem writeFold_status (flush : Nat → Bool) (rs : List (Nat × TaskResult)) :
    ∀ st : Progress × List Progress, st.1.status = "converting" →
    (∀ q ∈ st.2, q.status = "converting") →
    ((rs.foldl (writeStep flush) st).1.status = "converting" ∧
      ∀ q ∈ (rs.foldl (writeStep flush) st).2, q.status = "converting") := by
  induction rs with
  | nil =>
    intro st h1 h2
    exact ⟨h1, h2⟩
  | cons r rs ih =>
    intro st h1 h2
    rw [List.foldl_cons]
    apply ih
    · show (progressStep st.1 r.2).status = "converting"
      rw [progressStep_status]
      exact h1
    · intro q hq
      show q.status = "converting"
      have hq2 : q ∈ if flush r.1 then st.2 ++ [progressStep st.1 r.2] else st.2 := hq
      by_cases hf : flush r.1 = true
      · rw [if_pos hf] at hq2
        rcases List.mem_append.mp hq2 with h | h
        · exact h2 q h
        · rw [List.mem_singleton.mp h, progressStep_status]
          exact h1
      · rw [if_neg hf] at hq2
        exact h2 q hq2

/-- Amended claim C8: the first progress record `main` writes has status
`"converting"` (written as soon as the asset list is finalized), and no
record it ever writes — initial, debounced, or final — has status
`"scanning"`; the script has no `"scanning"` state at all. -/
theorem progress_status_trace (tasks : List (String × TaskEnv))
    (jsonSer : Gltf → List Nat) (flush : Nat → Bool) :
    (mainWrites tasks jsonSer flush).head? = some (initProgress tasks.length) ∧
    (initProgress tasks.length).status = "converting" ∧
    ∀ p ∈ mainWrites tasks jsonSer flush, p.status ≠ "scanning" := by
  refine ⟨rfl, rfl, ?_⟩
  intro p hp
  have hfold := writeFold_status flush
    ((tasks.map fun t => convert_model_task t.1 t.2 jsonSer).enum)
    (initProgress tasks.length, []) rfl (by intro q hq; simp at hq)
  have hm : mainWrites tasks jsonSer flush =
      initProgress tasks.length ::
        (((tasks.map fun t => convert_model_task t.1 t.2 jsonSer).enum).foldl
          (writeStep flush) (initProgress tasks.length, [])).2 ++
        [finalizeProgress
          (((tasks.map fun t => convert_model_task t.1 t.2 jsonSer).enum).foldl
            (writeStep flush) (initProgress tasks.length, [])).1] := rfl
  rw [hm] at hp
  rcases List.mem_cons.mp hp with hpe | hp2
  · rw [hpe]
    show ("converting" : String) ≠ "scanning"
    decide
  · rcases List.mem_append.mp hp2 with h | h
    · rw [hfold.2 p h]
      decide
    · rw [List.mem_singleton.mp h, finalize_status]
      by_cases he :
          (((tasks.map fun t => convert_model_task t.1 t.2 jsonSer).enum).foldl
            (writeStep flush) (initProgress tasks.length, [])).1.errors = []
      · rw [if_pos he]
        decide
      · rw [if_neg he]
        decide

/-- Counterexample to C8 as stated: in this (representative) run the very
first status value observable in the progress record is `"converting"`, not
`"scanning"` — `"scanning"` is never written. -/
theorem progress_status_counterexample :
    (mainWrites demoC8Tasks demoSer (fun _ => false)).map Progress.status =
      ["converting", "error"] ∧
    ("converting" : String) ≠ "scanning" := by
  constructor
  · rfl
  · decide

/-- Witness for the amended C8 at a concrete run. -/
theorem progress_status_trace_witness :
    (mainWrites demoC8Tasks demoSer (fun _ => false)).head? =
      some (initProgress demoC8Tasks.length) ∧
    (initProgress demoC8Tasks.length).status = "converting" ∧
    ∀ p ∈ mainWrites demoC8Tasks demoSer (fun _ => false), p.status ≠ "scanning" :=
  progress_status_trace demoC8Tasks demoSer (fun _ => false)

/-! ## Lemmas about the UV read loop -/

theorem readUVGo_ok (bin : List Nat) (offset stride : Nat) :
    ∀ (r i : Nat) (out : List Nat),
    (∀ k, k < r → offset + (i + k) * stride + 4 ≤ bin.length) →
    ∃ o, readUVGo bin offset stride out i r = .ok o := by
  intro r
  induction r with
  | zero =>
    intro i out _
    exact ⟨out, rfl⟩
  | succ r ih =>
    intro i out h
    have h0 : ¬ (offset + i * stride + 4 > bin.length) := by
      have hk0 := h 0 (Nat.succ_pos r)
      have hz : i + 0 = i := rfl
      rw [hz] at hk0
      omega
    have hstep : readUVGo bin offset stride out i (r + 1) =
        readUVGo bin offset stride
          (out ++ f32PairBytes ((bin.drop (offset + i * stride)).take 4)) (i + 1) r := by
      simp only [readUVGo]
      rw [if_neg h0]
    rw [hstep]
    apply ih (i + 1)
    intro k hk
    have hx := h (k + 1) (by omega)
    have heq : i + (k + 1) = i + 1 + k := by omega
    rw [heq] at hx
    exact hx

theorem readUVGo_err (bin : List Nat) (offset stride : Nat) :
    ∀ (r i : Nat) (out : List Nat),
    (∃ k, k < r ∧ offset + (i + k) * stride + 4 > bin.length) →
    ∃ p, readUVGo bin offset stride out i r = .error (.valueError p bin.length) := by
  intro r
  induction r with
  | zero =>
    intro i out hex
    obtain ⟨k, hk, -⟩ := hex
    exact absurd hk (Nat.not_lt_zero k)
  | succ r ih =>
    intro i out hex
    obtain ⟨k, hk, hgt⟩ := hex
    by_cases h0 : offset + i * stride + 4 > bin.length
    · refine ⟨offset + i * stride, ?_⟩
      simp only [readUVGo]
      rw [if_pos h0]
    · have hstep : readUVGo bin offset stride out i (r + 1) =
          readUVGo bin offset stride
            (out ++ f32PairBytes ((bin.drop (offset + i * stride)).take 4)) (i + 1) r := by
        simp only [readUVGo]
        rw [if_neg h0]
      rw [hstep]
      apply ih (i + 1)
      cases k with
      | zero =>
        rw [Nat.add_zero] at hgt
        exact absurd hgt h0
      | succ k2 =>
        refine ⟨k2, by omega, ?_⟩
        have heq : i + (k2 + 1) = i + 1 + k2 := by omega
        rw [heq] at hgt
        exact hgt

/-! ## Lemmas about `TEXCOORD_0` collection -/

theorem nodup_append_singleton {α : Type} (l : List α) (x : α)
    (hl : l.Nodup) (hx : x ∉ l) : (l ++ [x]).Nodup := by
  rw [List.nodup_append]
  refine ⟨hl, List.nodup_singleton x, ?_⟩
  intro a ha hb
  rw [List.mem_singleton] at hb
  subst hb
  exact hx ha

theorem stepUv_isOk (accessors : List GAccessor) (uvs : List (Nat × GAccessor))
    (t : Option Nat) (h : ∀ i, t = some i → i < accessors.length) :
    ∃ uvs', stepUv accessors uvs t = .ok uvs' := by
  cases t with
  | none => exact ⟨uvs, rfl⟩
  | some i =>
    by_cases hany : (uvs.any fun q => q.1 = i) = true
    · exact ⟨uvs, by simp only [stepUv]; rw [if_pos hany]⟩
    · have hlt := h i rfl
      cases hgi : accessors[i]? with
      | none =>
        have h2 := List.getElem?_eq_getElem hlt
        rw [hgi] at h2
        simp at h2
      | some a =>
        exact ⟨uvs ++ [(i, a)], by simp only [stepUv]; rw [if_neg hany, hgi]⟩

theorem stepUv_spec (accessors : List GAccessor) (uvs : List (Nat × GAccessor))
    (t : Option Nat) (uvs' : List (Nat × GAccessor))
    (h : stepUv accessors uvs t = .ok uvs') :
    (∀ q ∈ uvs, q ∈ uvs') ∧
    (∀ q ∈ uvs', q ∈ uvs ∨ (accessors[q.1]? = some q.2 ∧ t = some q.1)) ∧
    (∀ i, t = some i → ∃ a, (i, a) ∈ uvs') ∧
    ((uvs.map Prod.fst).Nodup → (uvs'.map Prod.fst).Nodup) := by
  cases t with
  | none =>
    simp only [stepUv] at h
    injection h with h
    subst h
    exact ⟨fun q hq => hq, fun q hq => Or.inl hq,
      fun i hi => Option.noConfusion hi, fun hn => hn⟩
  | some i =>
    by_cases hany : (uvs.any fun q => q.1 = i) = true
    · have h2 : uvs = uvs' := by
        simp only [stepUv] at h
        rw [if_pos hany] at h
        injection h
      subst h2
      refine ⟨fun q hq => hq, fun q hq => Or.inl hq, ?_, fun hn => hn⟩
      intro j hj
      injection hj with hj
      subst hj
      obtain ⟨q, hqmem, hqi⟩ := List.any_eq_true.mp hany
      have hq1 : q.1 = i := of_decide_eq_true hqi
      exact ⟨q.2, by rw [← hq1]; exact hqmem⟩
    · cases hgi : accessors[i]? with
      | none =>
        simp only [stepUv] at h
        rw [if_neg hany, hgi] at h
        cases h
      | some a =>
        have h2 : uvs ++ [(i, a)] = uvs' := by
          simp only [stepUv] at h
          rw [if_neg hany, hgi] at h
          injection h
        subst h2
        refine ⟨fun q hq => List.mem_append_left _ hq, ?_, ?_, ?_⟩
        · intro q hq
          rcases List.mem_append.mp hq with hq | hq
          · exact Or.inl hq
          · rw [List.mem_singleton] at hq
            subst hq
            exact Or.inr ⟨hgi, rfl⟩
        · intro j hj
          injection hj with hj
          subst hj
          exact ⟨a, List.mem_append_right _ (List.mem_singleton.mpr rfl)⟩
        · intro hn
          rw [List.map_append]
          apply nodup_append_singleton _ _ hn
          intro hmem
          apply hany
          rw [List.any_eq_true]
          obtain ⟨q, hq, hq1⟩ := List.mem_map.mp hmem
          exact ⟨q, hq, decide_eq_true hq1⟩

theorem collectPrims_spec (accessors : List GAccessor) :
    ∀ (ps : List GPrimitive) (uvs uvs' : List (Nat × GAccessor)) (ps' : List GPrimitive),
    collectPrims accessors uvs ps = .ok (ps', uvs') →
    (∀ q ∈ uvs, q ∈ uvs') ∧
    (∀ q ∈ uvs', q ∈ uvs ∨ (accessors[q.1]? = some q.2 ∧
      ∃ p ∈ ps, p.attributes.texcoord0 = some q.1)) ∧
    (∀ p ∈ ps, ∀ i, p.attributes.texcoord0 = some i → ∃ a, (i, a) ∈ uvs') ∧
    ((uvs.map Prod.fst).Nodup → (uvs'.map Prod.fst).Nodup) := by
  intro ps
  induction ps with
  | nil =>
    intro uvs uvs' ps' h
    simp only [collectPrims] at h
    injection h with h
    injection h with h1 h2
    subst h2
    exact ⟨fun q hq => hq, fun q hq => Or.inl hq,
      fun p hp => absurd hp (List.not_mem_nil p), fun hn => hn⟩
  | cons p ps ih =>
    intro uvs uvs' ps' h
    simp only [collectPrims] at h
    split at h
    · cases h
    · next uvs1 hstep =>
      split at h
      · cases h
      · next ps1 uvs2 hrec =>
        injection h with h
        injection h with h1 h2
        subst h2
        obtain ⟨smono, ssound, scomp, skeys⟩ :=
          stepUv_spec accessors uvs p.attributes.texcoord0 uvs1 hstep
        obtain ⟨cmono, csound, ccomp, ckeys⟩ := ih uvs1 uvs2 ps1 hrec
        refine ⟨?_, ?_, ?_, ?_⟩
        · intro q hq
          exact cmono q (smono q hq)
        · intro q hq
          rcases csound q hq with hq1 | ⟨hacc, hp, hpmem, hptex⟩
          · rcases ssound q hq1 with hq2 | ⟨hacc, htex⟩
            · exact Or.inl hq2
            · exact Or.inr ⟨hacc, p, List.mem_cons_self p ps, htex⟩
          · exact Or.inr ⟨hacc, hp, List.mem_cons_of_mem p hpmem, hptex⟩
        · intro p0 hp0 i hi
          rcases List.mem_cons.mp hp0 with hpe | hpm
          · subst hpe
            obtain ⟨a, ha⟩ := scomp i hi
            exact ⟨a, cmono (i, a) ha⟩
          · exact ccomp p0 hpm i hi
        · intro hn
          exact ckeys (skeys hn)

theorem collectPrims_isOk (accessors : List GAccessor) :
    ∀ (ps : List GPrimitive) (uvs : List (Nat × GAccessor)),
    (∀ p ∈ ps, ∀ i, p.attributes.texcoord0 = some i → i < accessors.length) →
    ∃ out, collectPrims accessors uvs ps = .ok out := by
  intro ps
  induction ps with
  | nil =>
    intro uvs _
    exact ⟨([], uvs), rfl⟩
  | cons p ps ih =>
    intro uvs h
    obtain ⟨uvs1, hstep⟩ := stepUv_isOk accessors uvs p.attributes.texcoord0
      (fun i hi => h p (List.mem_cons_self p ps) i hi)
    obtain ⟨⟨ps1, uvs2⟩, hrec⟩ := ih uvs1 (fun q hq => h q (List.mem_cons_of_mem p hq))
    refine ⟨({ p with attributes := stripAttrs p.attributes } :: ps1, uvs2), ?_⟩
    simp only [collectPrims]
    rw [hstep]
    show (match collectPrims accessors uvs1 ps with
      | Except.error e => Except.error e
      | Except.ok (ps', uvs'') =>
        Except.ok ({ p with attributes := stripAttrs p.attributes } :: ps', uvs'')) =
      Except.ok ({ p with attributes := stripAttrs p.attributes } :: ps1, uvs2)
    rw [hrec]

theorem collectMeshes_spec (accessors : List GAccessor) :
    ∀ (ms : List GMesh) (uvs uvs' : List (Nat × GAccessor)) (ms' : List GMesh),
    collectMeshes accessors uvs ms = .ok (ms', uvs') →
    (∀ q ∈ uvs, q ∈ uvs') ∧
    (∀ q ∈ uvs', q ∈ uvs ∨ (accessors[q.1]? = some q.2 ∧
      ∃ m ∈ ms, ∃ p ∈ m.primitives, p.attributes.texcoord0 = some q.1)) ∧
    (∀ m ∈ ms, ∀ p ∈ m.primitives, ∀ i, p.attributes.texcoord0 = some i →
      ∃ a, (i, a) ∈ uvs') ∧
    ((uvs.map Prod.fst).Nodup → (uvs'.map Prod.fst).Nodup) := by
  intro ms
  induction ms with
  | nil =>
    intro uvs uvs' ms' h
    simp only [collectMeshes] at h
    injection h with h
    injection h with h1 h2
    subst h2
    exact ⟨fun q hq => hq, fun q hq => Or.inl hq,
      fun m hm => absurd hm (List.not_mem_nil m), fun hn => hn⟩
  | cons m ms ih =>
    intro uvs uvs' ms' h
    simp only [collectMeshes] at h
    split at h
    · cases h
    · next ps1 uvs1 hprim =>
      split at h
      · cases h
      · next ms1 uvs2 hrec =>
        injection h with h
        injection h with h1 h2
        subst h2
        obtain ⟨pmono, psound, pcomp, pkeys⟩ :=
          collectPrims_spec accessors m.primitives uvs uvs1 ps1 hprim
        obtain ⟨cmono, csound, ccomp, ckeys⟩ := ih uvs1 uvs2 ms1 hrec
        refine ⟨?_, ?_, ?_, ?_⟩
        · intro q hq
          exact cmono q (pmono q hq)
        · intro q hq
          rcases csound q hq with hq1 | ⟨hacc, m2, hm2, hp2⟩
          · rcases psound q hq1 with hq2 | ⟨hacc, p2, hp2, htex⟩
            · exact Or.inl hq2
            · exact Or.inr ⟨hacc, m, List.mem_cons_self m ms, p2, hp2, htex⟩
          · exact Or.inr ⟨hacc, m2, List.mem_cons_of_mem m hm2, hp2⟩
        · intro m0 hm0 p0 hp0 i hi
          rcases List.mem_cons.mp hm0 with hme | hmm2
          · subst hme
            obtain ⟨a, ha⟩ := pcomp p0 hp0 i hi
            exact ⟨a, cmono (i, a) ha⟩
          · exact ccomp m0 hmm2 p0 hp0 i hi
        · intro hn
          exact ckeys (pkeys hn)

theorem collectMeshes_isOk (accessors : List GAccessor) :
    ∀ (ms : List GMesh) (uvs : List (Nat × GAccessor)),
    (∀ m ∈ ms, ∀ p ∈ m.primitives, ∀ i, p.attributes.texcoord0 = some i →
      i < accessors.length) →
    ∃ out, collectMeshes accessors uvs ms = .ok out := by
  intro ms
  induction ms with
  | nil =>
    intro uvs _
    exact ⟨([], uvs), rfl⟩
  | cons m ms ih =>
    intro uvs h
    obtain ⟨⟨ps1, uvs1⟩, hprim⟩ := collectPrims_isOk accessors m.primitives uvs
      (fun p hp i hi => h m (List.mem_cons_self m ms) p hp i hi)
    obtain ⟨⟨ms1, uvs2⟩, hrec⟩ := ih uvs1
      (fun m0 hm0 p hp i hi => h m0 (List.mem_cons_of_mem m hm0) p hp i hi)
    refine ⟨({ primitives := ps1 } :: ms1, uvs2), ?_⟩
    simp only [collectMeshes]
    rw [hprim]
    show (match collectMeshes accessors uvs1 ms with
      | Except.error e => Except.error e
      | Except.ok (ms', uvs'') => Except.ok ({ primitives := ps1 } :: ms', uvs'')) =
      Except.ok ({ primitives := ps1 } :: ms1, uvs2)
    rw [hrec]

/-! ## Lemmas about the UV conversion loop (`buildUv`) -/

/-- When a 5122 entry can resolve its buffer view, `entryViol` spelled with
the view in hand. -/
theorem entryViol_resolved (bvs : List GBufferView) (bin : List Nat) (a : GAccessor)
    (j : Nat) (bv : GBufferView) (h5 : a.componentType = 5122)
    (hj : a.bufferView = some j) (hbv : bvs[j]? = some bv) :
    entryViol bvs bin a =
      (List.range a.count).any fun k =>
        decide (bv.byteOffset.getD 0 + a.byteOffset.getD 0 + k * bv.byteStride.getD 4
          + 4 > bin.length) := by
  unfold entryViol
  rw [hj]
  simp only [hbv, h5]
  simp

theorem buildUv_err (bvs : List GBufferView) (bin : List Nat) :
    ∀ (uvs : List (Nat × GAccessor)) (data : List Nat) (maps : List UvMap),
    (∀ q ∈ uvs, q.2.componentType = 5122 →
      ∃ j bv, q.2.bufferView = some j ∧ bvs[j]? = some bv) →
    (∃ q ∈ uvs, entryViol bvs bin q.2 = true) →
    ∃ p, buildUv bvs bin uvs data maps = .error (.valueError p bin.length) := by
  intro uvs
  induction uvs with
  | nil =>
    intro data maps _ hex
    obtain ⟨q, hq, -⟩ := hex
    exact absurd hq (List.not_mem_nil q)
  | cons q0 uvs ih =>
    intro data maps hval hex
    obtain ⟨idx, a⟩ := q0
    by_cases h5 : a.componentType = 5122
    · obtain ⟨j, bv, hj, hbv⟩ :=
        hval (idx, a) (List.mem_cons_self _ _) h5
      have hne : ¬ (a.componentType ≠ 5122) := by
        rw [h5]
        simp
      have hred : buildUv bvs bin ((idx, a) :: uvs) data maps =
          match readUVs bin (bv.byteOffset.getD 0 + a.byteOffset.getD 0)
              (bv.byteStride.getD 4) a.count with
          | .error e => .error e
          | .ok bytes =>
            buildUv bvs bin uvs (data ++ bytes) (maps ++ [⟨idx, data.length, a.count⟩]) := by
        simp only [buildUv]
        rw [if_neg hne, hj]
        simp only [hbv]
      by_cases hviol : entryViol bvs bin (idx, a).2 = true
      · rw [entryViol_resolved bvs bin a j bv h5 hj hbv] at hviol
        obtain ⟨k, hkmem, hkgt⟩ := List.any_eq_true.mp hviol
        rw [List.mem_range] at hkmem
        have hkgt2 := of_decide_eq_true hkgt
        have hviol2 : ∃ k2, k2 < a.count ∧
            bv.byteOffset.getD 0 + a.byteOffset.getD 0 + (0 + k2) * bv.byteStride.getD 4
              + 4 > bin.length := by
          refine ⟨k, hkmem, ?_⟩
          have hz : 0 + k = k := by omega
          rw [hz]
          exact hkgt2
        obtain ⟨p, hp⟩ := readUVGo_err bin
          (bv.byteOffset.getD 0 + a.byteOffset.getD 0) (bv.byteStride.getD 4)
          a.count 0 [] hviol2
        refine ⟨p, ?_⟩
        rw [hred]
        unfold readUVs
        rw [hp]
      · have hok : ∃ o, readUVs bin (bv.byteOffset.getD 0 + a.byteOffset.getD 0)
            (bv.byteStride.getD 4) a.count = .ok o := by
          apply readUVGo_ok
          intro k hk
          by_contra hcon
          apply hviol
          rw [entryViol_resolved bvs bin a j bv h5 hj hbv]
          rw [List.any_eq_true]
          refine ⟨k, List.mem_range.mpr hk, decide_eq_true ?_⟩
          have hz : 0 + k = k := by omega
          rw [hz] at hcon
          omega
        obtain ⟨o, ho⟩ := hok
        have hex2 : ∃ q ∈ uvs, entryViol bvs bin q.2 = true := by
          obtain ⟨q, hq, hqv⟩ := hex
          rcases List.mem_cons.mp hq with hqe | hqm
          · exfalso
            apply hviol
            rw [hqe] at hqv
            exact hqv
          · exact ⟨q, hqm, hqv⟩
        obtain ⟨p, hp⟩ := ih (data ++ o) (maps ++ [⟨idx, data.length, a.count⟩])
          (fun q hq hq5 => hval q (List.mem_cons_of_mem _ hq) hq5) hex2
        refine ⟨p, ?_⟩
        rw [hred, ho]
        exact hp
    · have hex2 : ∃ q ∈ uvs, entryViol bvs bin q.2 = true := by
        obtain ⟨q, hq, hqv⟩ := hex
        rcases List.mem_cons.mp hq with hqe | hqm
        · exfalso
          rw [hqe] at hqv
          unfold entryViol at hqv
          rw [Bool.and_eq_true] at hqv
          exact h5 (by exact of_decide_eq_true (by simpa using hqv.1))
        · exact ⟨q, hqm, hqv⟩
      obtain ⟨p, hp⟩ := ih data maps
        (fun q hq hq5 => hval q (List.mem_cons_of_mem _ hq) hq5) hex2
      refine ⟨p, ?_⟩
      have hred : buildUv bvs bin ((idx, a) :: uvs) data maps =
          buildUv bvs bin uvs data maps := by
        simp only [buildUv]
        rw [if_pos h5]
      rw [hred]
      exact hp

theorem buildUv_ok (bvs : List GBufferView) (bin : List Nat) :
    ∀ (uvs : List (Nat × GAccessor)) (data : List Nat) (maps : List UvMap),
    (∀ q ∈ uvs, q.2.componentType = 5122 →
      ∃ j bv, q.2.bufferView = some j ∧ bvs[j]? = some bv) →
    (∀ q ∈ uvs, entryViol bvs bin q.2 = false) →
    ∃ out, buildUv bvs bin uvs data maps = .ok out := by
  intro uvs
  induction uvs with
  | nil =>
    intro data maps _ _
    exact ⟨(data, maps), rfl⟩
  | cons q0 uvs ih =>
    intro data maps hval hnov
    obtain ⟨idx, a⟩ := q0
    by_cases h5 : a.componentType = 5122
    · obtain ⟨j, bv, hj, hbv⟩ := hval (idx, a) (List.mem_cons_self _ _) h5
      have hne : ¬ (a.componentType ≠ 5122) := by
        rw [h5]
        simp
      have hviol := hnov (idx, a) (List.mem_cons_self _ _)
      rw [entryViol_resolved bvs bin a j bv h5 hj hbv] at hviol
      have hok : ∃ o, readUVs bin (bv.byteOffset.getD 0 + a.byteOffset.getD 0)
          (bv.byteStride.getD 4) a.count = .ok o := by
        apply readUVGo_ok
        intro k hk
        by_contra hcon
        rw [List.any_eq_false] at hviol
        apply hviol k (List.mem_range.mpr hk)
        refine decide_eq_true ?_
        have hz : 0 + k = k := by omega
        rw [hz] at hcon
        omega
      obtain ⟨o, ho⟩ := hok
      obtain ⟨out, hrec⟩ := ih (data ++ o) (maps ++ [⟨idx, data.length, a.count⟩])
        (fun q hq hq5 => hval q (List.mem_cons_of_mem _ hq) hq5)
        (fun q hq => hnov q (List.mem_cons_of_mem _ hq))
      refine ⟨out, ?_⟩
      have hred : buildUv bvs bin ((idx, a) :: uvs) data maps =
          match readUVs bin (bv.byteOffset.getD 0 + a.byteOffset.getD 0)
              (bv.byteStride.getD 4) a.count with
          | .error e => .error e
          | .ok bytes =>
            buildUv bvs bin uvs (data ++ bytes) (maps ++ [⟨idx, data.length, a.count⟩]) := by
        simp only [buildUv]
        rw [if_neg hne, hj]
        simp only [hbv]
      rw [hred, ho]
      exact hrec
    · obtain ⟨out, hrec⟩ := ih data maps
        (fun q hq hq5 => hval q (List.mem_cons_of_mem _ hq) hq5)
        (fun q hq => hnov q (List.mem_cons_of_mem _ hq))
      refine ⟨out, ?_⟩
      have hred : buildUv bvs bin ((idx, a) :: uvs) data maps =
          buildUv bvs bin uvs data maps := by
        simp only [buildUv]
        rw [if_pos h5]
      rw [hred]
      exact hrec

theorem buildUv_maps (bvs : List GBufferView) (bin : List Nat) :
    ∀ (uvs : List (Nat × GAccessor)) (data : List Nat) (maps : List UvMap)
      (data' : List Nat) (maps' : List UvMap),
    buildUv bvs bin uvs data maps = .ok (data', maps') →
    maps'.map UvMap.idx = maps.map UvMap.idx ++
      (uvs.filter fun q => q.2.componentType == 5122).map Prod.fst := by
  intro uvs
  induction uvs with
  | nil =>
    intro data maps data' maps' h
    simp only [buildUv] at h
    injection h with h
    injection h with h1 h2
    subst h2
    simp
  | cons q0 uvs ih =>
    intro data maps data' maps' h
    obtain ⟨idx, a⟩ := q0
    by_cases h5 : a.componentType = 5122
    · have hne : ¬ (a.componentType ≠ 5122) := by
        rw [h5]
        simp
      have hred : buildUv bvs bin ((idx, a) :: uvs) data maps =
          match a.bufferView with
          | none => (.error (.keyError "bufferView") : Except ConvErr (List Nat × List UvMap))
          | some j =>
            match bvs[j]? with
            | none => .error .indexError
            | some bv =>
              match readUVs bin (bv.byteOffset.getD 0 + a.byteOffset.getD 0)
                  (bv.byteStride.getD 4) a.count with
              | .error e => .error e
              | .ok bytes =>
                buildUv bvs bin uvs (data ++ bytes) (maps ++ [⟨idx, data.length, a.count⟩]) := by
        simp only [buildUv]
        rw [if_neg hne]
      rw [hred] at h
      have hfil : ((idx, a) :: uvs).filter (fun q => q.2.componentType == 5122) =
          (idx, a) :: uvs.filter (fun q => q.2.componentType == 5122) := by
        rw [List.filter_cons]
        rw [if_pos (by simp [h5])]
      rw [hfil]
      split at h
      · cases h
      · split at h
        · cases h
        · split at h
          · cases h
          · next bytes hread =>
            have := ih (data ++ bytes) (maps ++ [⟨idx, data.length, a.count⟩])
              data' maps' h
            rw [this]
            simp
    · have hred : buildUv bvs bin ((idx, a) :: uvs) data maps =
          buildUv bvs bin uvs data maps := by
        simp only [buildUv]
        rw [if_pos h5]
      rw [hred] at h
      have hfil : ((idx, a) :: uvs).filter (fun q => q.2.componentType == 5122) =
          uvs.filter (fun q => q.2.componentType == 5122) := by
        rw [List.filter_cons]
        rw [if_neg (by simp [h5])]
      rw [hfil]
      exact ih data maps data' maps' h

/-! ## Lemmas about the accessor rewrite (`applyUvMaps`) -/

theorem getElem?_set_self_of_lt {α : Type} (l : List α) (i : Nat) (x : α)
    (h : i < l.length) : (l.set i x)[i]? = some x := by
  rw [List.getElem?_set_self']
  rw [List.getElem?_eq_getElem h]
  rfl

theorem applyUvMaps_ne (u : Nat) :
    ∀ (maps : List UvMap) (accs : List GAccessor) (i : Nat),
    (∀ m ∈ maps, m.idx ≠ i) →
    (applyUvMaps u accs maps)[i]? = accs[i]? := by
  intro maps
  induction maps with
  | nil =>
    intro accs i _
    rfl
  | cons m maps ih =>
    intro accs i h
    have hstep : applyUvMaps u accs (m :: maps) =
        applyUvMaps u
          (match accs[m.idx]? with
           | some a => accs.set m.idx
               { a with bufferView := some u, byteOffset := some m.off,
                        componentType := 5126, normalized := some false,
                        min := none, max := none }
           | none => accs) maps := by
      simp only [applyUvMaps, List.foldl_cons]
    rw [hstep, ih _ i (fun m2 hm2 => h m2 (List.mem_cons_of_mem m hm2))]
    cases hacc : accs[m.idx]? with
    | none => rfl
    | some a => exact List.getElem?_set_ne (h m (List.mem_cons_self m maps))

theorem applyUvMaps_mem (u : Nat) :
    ∀ (maps : List UvMap) (accs : List GAccessor) (m0 : UvMap) (a : GAccessor),
    (maps.map UvMap.idx).Nodup → m0 ∈ maps → accs[m0.idx]? = some a →
    (applyUvMaps u accs maps)[m0.idx]? = some
      { a with bufferView := some u, byteOffset := some m0.off,
               componentType := 5126, normalized := some false,
               min := none, max := none } := by
  intro maps
  induction maps with
  | nil =>
    intro accs m0 a _ hm _
    exact absurd hm (List.not_mem_nil m0)
  | cons m maps ih =>
    intro accs m0 a hnd hm hacc
    have hnd2 : m.idx ∉ maps.map UvMap.idx ∧ (maps.map UvMap.idx).Nodup := by
      rw [List.map_cons] at hnd
      exact List.nodup_cons.mp hnd
    have hstep : applyUvMaps u accs (m :: maps) =
        applyUvMaps u
          (match accs[m.idx]? with
           | some a2 => accs.set m.idx
               { a2 with bufferView := some u, byteOffset := some m.off,
                         componentType := 5126, normalized := some false,
                         min := none, max := none }
           | none => accs) maps := by
      simp only [applyUvMaps, List.foldl_cons]
    rcases List.mem_cons.mp hm with hme | hmm2
    · subst hme
      rw [hstep]
      simp only [hacc]
      have hlt : m0.idx < accs.length := by
        rcases List.getElem?_eq_some.mp hacc with ⟨hlt, -⟩
        exact hlt
      have hne : ∀ m2 ∈ maps, m2.idx ≠ m0.idx := by
        intro m2 hm2 he
        exact hnd2.1 (by
          rw [← he]
          exact List.mem_map.mpr ⟨m2, hm2, rfl⟩)
      rw [applyUvMaps_ne u maps _ m0.idx hne]
      rw [getElem?_set_self_of_lt _ _ _ (by simpa using hlt)]
    · rw [hstep]
      have hne : m.idx ≠ m0.idx := by
        intro he
        exact hnd2.1 (by
          rw [he]
          exact List.mem_map.mpr ⟨m0, hmm2, rfl⟩)
      have hacc2 : (match accs[m.idx]? with
           | some a2 => accs.set m.idx
               { a2 with bufferView := some u, byteOffset := some m.off,
                         componentType := 5126, normalized := some false,
                         min := none, max := none }
           | none => accs)[m0.idx]? = some a := by
        cases hma : accs[m.idx]? with
        | none => exact hacc
        | some a2 =>
          rw [List.getElem?_set_ne hne]
          exact hacc
      exact ih _ m0 a hnd2.2 hmm2 hacc2

/-! ## The converter pipeline under the well-formedness predicates -/

theorem validTexIndices_spec (g : Gltf) (h : validTexIndices g = true) :
    ∀ m ∈ g.meshes, ∀ p ∈ m.primitives, ∀ i, p.attributes.texcoord0 = some i →
      i < g.accessors.length := by
  intro m hm p hp i hi
  unfold validTexIndices at h
  rw [List.all_eq_true] at h
  have h2 := h m hm
  rw [List.all_eq_true] at h2
  have h3 := h2 p hp
  rw [hi] at h3
  exact of_decide_eq_true h3

theorem validUvBufferViews_spec (g : Gltf) (h : validUvBufferViews g = true) :
    ∀ a ∈ g.accessors, a.componentType = 5122 →
      ∃ j bv, a.bufferView = some j ∧ g.bufferViews[j]? = some bv := by
  intro a ha h5
  unfold validUvBufferViews at h
  rw [List.all_eq_true] at h
  have h2 := h a ha
  have hb : (a.componentType == 5122) = true := by simp [h5]
  rw [if_pos hb] at h2
  cases hbv : a.bufferView with
  | none =>
    rw [hbv] at h2
    cases h2
  | some j =>
    rw [hbv] at h2
    have hlt : j < g.bufferViews.length := of_decide_eq_true h2
    exact ⟨j, g.bufferViews[j], rfl, List.getElem?_eq_getElem hlt⟩

theorem convertDoc_run (g : Gltf) (binFile : List Nat) (imgBytes : Nat → List Nat)
    (b0 : GBuffer) (bs : List GBuffer) (hbuf : g.buffers = b0 :: bs)
    (ht : validTexIndices g = true) (hv : validUvBufferViews g = true) :
    (hasUvViolation g (effBin g binFile) = true →
      ∃ p, convertDoc g binFile imgBytes =
        .error (.valueError p (effBin g binFile).length)) ∧
    (hasUvViolation g (effBin g binFile) = false →
      ∃ out, convertDoc g binFile imgBytes = .ok out) := by
  have hh : g.buffers.head? = some b0 := by rw [hbuf]; rfl
  have hbe : (if truthyUri b0.uri then binFile else []) = effBin g binFile := by
    unfold effBin
    rw [hh]
  have htex := validTexIndices_spec g ht
  obtain ⟨⟨ms', uvs⟩, hcol⟩ := collectMeshes_isOk g.accessors g.meshes [] htex
  obtain ⟨-, hsound, hcomp, -⟩ := collectMeshes_spec g.accessors g.meshes [] uvs ms' hcol
  have hsound2 : ∀ q ∈ uvs, g.accessors[q.1]? = some q.2 ∧
      ∃ m ∈ g.meshes, ∃ p ∈ m.primitives, p.attributes.texcoord0 = some q.1 := by
    intro q hq
    rcases hsound q hq with hq0 | h
    · exact absurd hq0 (List.not_mem_nil q)
    · exact h
  have hval : ∀ q ∈ uvs, q.2.componentType = 5122 →
      ∃ j bv, q.2.bufferView = some j ∧ g.bufferViews[j]? = some bv := by
    intro q hq h5
    have hmem : q.2 ∈ g.accessors := by
      rcases List.getElem?_eq_some.mp (hsound2 q hq).1 with ⟨hlt, he⟩
      rw [← he]
      exact List.getElem_mem hlt
    exact validUvBufferViews_spec g hv q.2 hmem h5
  have hconv : ∀ res, buildUv g.bufferViews (effBin g binFile) uvs [] [] = res →
      convertDoc g binFile imgBytes =
        match res with
        | .error e => .error e
        | .ok (d, mp) => .ok (convertTail g imgBytes ms' (effBin g binFile) d mp) := by
    intro res hres
    unfold convertDoc
    rw [hh]
    simp only [hcol]
    rw [hbe, hres]
  constructor
  · intro hviol
    unfold hasUvViolation at hviol
    rw [List.any_eq_true] at hviol
    obtain ⟨m, hm, hviol⟩ := hviol
    rw [List.any_eq_true] at hviol
    obtain ⟨p0, hp0, hviol⟩ := hviol
    cases htex0 : p0.attributes.texcoord0 with
    | none =>
      rw [htex0] at hviol
      cases hviol
    | some i =>
      rw [htex0] at hviol
      cases hacc : g.accessors[i]? with
      | none =>
        simp only [hacc] at hviol
        cases hviol
      | some a =>
        simp only [hacc] at hviol
        obtain ⟨a2, ha2⟩ := hcomp m hm p0 hp0 i htex0
        have heq := (hsound2 (i, a2) ha2).1
        rw [hacc] at heq
        injection heq with heq
        have heq2 : a = a2 := heq
        have hex : ∃ q ∈ uvs, entryViol g.bufferViews (effBin g binFile) q.2 = true := by
          refine ⟨(i, a2), ha2, ?_⟩
          show entryViol g.bufferViews (effBin g binFile) a2 = true
          rw [← heq2]
          exact hviol
        obtain ⟨perr, hbu⟩ := buildUv_err g.bufferViews (effBin g binFile) uvs [] []
          hval hex
        refine ⟨perr, ?_⟩
        rw [hconv _ hbu]
  · intro hnov
    have hnov2 : ∀ q ∈ uvs, entryViol g.bufferViews (effBin g binFile) q.2 = false := by
      intro q hq
      by_contra hcon
      rw [Bool.not_eq_false] at hcon
      obtain ⟨hacc, m, hm, p0, hp0, htex0⟩ := hsound2 q hq
      have hviol : hasUvViolation g (effBin g binFile) = true := by
        unfold hasUvViolation
        rw [List.any_eq_true]
        refine ⟨m, hm, ?_⟩
        rw [List.any_eq_true]
        refine ⟨p0, hp0, ?_⟩
        rw [htex0]
        simp only [hacc]
        exact hcon
      rw [hviol] at hnov
      cases hnov
    obtain ⟨⟨d, mp⟩, hbu⟩ := buildUv_ok g.bufferViews (effBin g binFile) uvs [] []
      hval hnov2
    exact ⟨convertTail g imgBytes ms' (effBin g binFile) d mp, by rw [hconv _ hbu]⟩

/-- Decompose a successful `convertDoc` run into its collection, UV-build and
accessor-rewrite parts. -/
theorem convertDoc_ok_parts (g : Gltf) (binFile : List Nat) (imgBytes : Nat → List Nat)
    (out : Gltf × List Nat × Bool) (hok : convertDoc g binFile imgBytes = .ok out) :
    ∃ ms' uvs d maps u,
      collectMeshes g.accessors [] g.meshes = .ok (ms', uvs) ∧
      buildUv g.bufferViews (effBin g binFile) uvs [] [] = .ok (d, maps) ∧
      out.1.accessors = applyUvMaps u g.accessors maps := by
  unfold convertDoc at hok
  split at hok
  · cases hok
  · next b0 hh =>
    have hbe : (if truthyUri b0.uri then binFile else []) = effBin g binFile := by
      unfold effBin
      rw [hh]
    simp only [hbe] at hok
    split at hok
    · cases hok
    · next ms' uvs hcol =>
      split at hok
      · cases hok
      · next d maps hbu =>
        injection hok with hok
        refine ⟨ms', uvs, d, maps,
          (appendImagesGo g.bufferViews g.images (pad4 0 (effBin g binFile)) 0
            ((g.images.enum.filter fun q => truthyUri q.2.uri).map
              fun q => imgBytes q.1)).1.length,
          hcol, hbu, ?_⟩
        rw [← hok]
        rfl

/-- Claim C9: an accessor referenced as `TEXCOORD_0` whose component type is
not 5122 is left entirely unchanged by the conversion — its `bufferView`,
`byteOffset`, `componentType`, `normalized` and `min`/`max` fields in the
output document equal those of the input. -/
theorem texcoord_non_5122_unchanged (g : Gltf) (binFile : List Nat)
    (imgBytes : Nat → List Nat) (out : Gltf × List Nat × Bool) (idx : Nat)
    (a : GAccessor) (hok : convertDoc g binFile imgBytes = .ok out)
    (_href : referencedTex g idx = true) (hacc : g.accessors[idx]? = some a)
    (hne : a.componentType ≠ 5122) :
    out.1.accessors[idx]? = some a := by
  obtain ⟨ms', uvs, d, maps, u, hcol, hbu, haccs⟩ :=
    convertDoc_ok_parts g binFile imgBytes out hok
  obtain ⟨-, hsound, -, -⟩ := collectMeshes_spec g.accessors g.meshes [] uvs ms' hcol
  have hmapkeys := buildUv_maps g.bufferViews (effBin g binFile) uvs [] [] d maps hbu
  rw [List.map_nil, List.nil_append] at hmapkeys
  have hnone : ∀ m ∈ maps, m.idx ≠ idx := by
    intro m hm he
    have hkey : m.idx ∈ maps.map UvMap.idx := List.mem_map.mpr ⟨m, hm, rfl⟩
    rw [hmapkeys] at hkey
    obtain ⟨q, hqf, hq1⟩ := List.mem_map.mp hkey
    have hqmem : q ∈ uvs := (List.mem_filter.mp hqf).1
    have hq5 : (q.2.componentType == 5122) = true := (List.mem_filter.mp hqf).2
    rcases hsound q hqmem with hq0 | ⟨hqacc, -⟩
    · exact absurd hq0 (List.not_mem_nil q)
    · rw [hq1, he, hacc] at hqacc
      injection hqacc with hqacc
      apply hne
      rw [hqacc]
      exact eq_of_beq hq5
  rw [haccs, applyUvMaps_ne u maps g.accessors idx hnone]
  exact hacc

/-- Amended claim C3: every `TEXCOORD_0` accessor that was declared with
component type 5122 is rewritten in the output to component type 32-bit
float (5126) with `normalized` set to `False` and its `min`/`max` fields
removed; texture-coordinate accessors of any other component type are left
as they were in the input (see the claim-C9 theorem). -/
theorem texcoord_5122_rewritten (g : Gltf) (binFile : List Nat)
    (imgBytes : Nat → List Nat) (out : Gltf × List Nat × Bool) (idx : Nat)
    (a : GAccessor) (hok : convertDoc g binFile imgBytes = .ok out)
    (href : referencedTex g idx = true) (hacc : g.accessors[idx]? = some a)
    (h5 : a.componentType = 5122) :
    ∃ a', out.1.accessors[idx]? = some a' ∧ a'.componentType = 5126 ∧
      a'.normalized = some false ∧ a'.min = none ∧ a'.max = none := by
  obtain ⟨ms', uvs, d, maps, u, hcol, hbu, haccs⟩ :=
    convertDoc_ok_parts g binFile imgBytes out hok
  obtain ⟨-, hsound, hcomp, hkeys⟩ :=
    collectMeshes_spec g.accessors g.meshes [] uvs ms' hcol
  have hmapkeys := buildUv_maps g.bufferViews (effBin g binFile) uvs [] [] d maps hbu
  rw [List.map_nil, List.nil_append] at hmapkeys
  have huvkeys : (uvs.map Prod.fst).Nodup := hkeys (by simp)
  have hmnd : (maps.map UvMap.idx).Nodup := by
    rw [hmapkeys]
    exact huvkeys.sublist (List.Sublist.map Prod.fst (List.filter_sublist uvs))
  unfold referencedTex at href
  rw [List.any_eq_true] at href
  obtain ⟨m, hm, href⟩ := href
  rw [List.any_eq_true] at href
  obtain ⟨p0, hp0, href⟩ := href
  have htex0 : p0.attributes.texcoord0 = some idx := by
    have := of_decide_eq_true (by simpa using href)
    exact this
  obtain ⟨a2, ha2⟩ := hcomp m hm p0 hp0 idx htex0
  have hq := hsound (idx, a2) ha2
  rcases hq with hq0 | ⟨hqacc, -⟩
  · exact absurd hq0 (List.not_mem_nil _)
  · have heq : a2 = a := by
      have hqacc2 : g.accessors[idx]? = some a2 := hqacc
      rw [hacc] at hqacc2
      injection hqacc2 with h2
      exact h2.symm
    subst heq
    have hmem_f : (idx, a2) ∈ uvs.filter (fun q => q.2.componentType == 5122) := by
      rw [List.mem_filter]
      exact ⟨ha2, by simp [h5]⟩
    have hkey : idx ∈ maps.map UvMap.idx := by
      rw [hmapkeys]
      exact List.mem_map.mpr ⟨(idx, a2), hmem_f, rfl⟩
    obtain ⟨m0, hm0, hm0idx⟩ := List.mem_map.mp hkey
    have hacc0 : g.accessors[m0.idx]? = some a2 := by
      rw [hm0idx]
      exact hacc
    have happ := applyUvMaps_mem u maps g.accessors m0 a2 hmnd hm0 hacc0
    refine ⟨_, by rw [haccs, ← hm0idx]; exact happ, rfl, rfl, rfl, rfl⟩

/-- `convert_model_task` on a resolvable environment reduces to dispatching
on `convert_single_gltf`. -/
theorem convert_model_task_resolved (name : String) (r : ResolvedInput)
    (jsonSer : Gltf → List Nat) :
    convert_model_task name { dirExists := true, resolved := some r } jsonSer =
      (match convert_single_gltf r.gltf r.binFile r.imgBytes jsonSer with
       | .ok okr =>
         { model_name := name, success := true, error := none, traceback := none,
           output_size := okr.output_size, has_animations := okr.has_animations,
           aircraft_type := (parse_model_name name).1,
           airline_code := (parse_model_name name).2 }
       | .error e => taskFail name (errMsg e)) := rfl

/-- Claim C2: when some texture-coordinate accessor read position
`bufferView.byteOffset + accessor.byteOffset + i*stride + 4` exceeds the
loaded buffer's length, `convert_single_gltf` raises the bounds
`ValueError`; the surrounding `convert_model_task` returns a result with
`success = False` carrying the error text and a traceback instead of
propagating, and folding that failed result into the progress record leaves
the `converted` entries of other tasks untouched (only `errors` grows). -/
theorem uv_bounds_error_and_task (name : String) (g : Gltf) (binFile : List Nat)
    (imgBytes : Nat → List Nat) (jsonSer : Gltf → List Nat)
    (b0 : GBuffer) (bs : List GBuffer) (hbuf : g.buffers = b0 :: bs)
    (ht : validTexIndices g = true) (hv : validUvBufferViews g = true)
    (hviol : hasUvViolation g (effBin g binFile) = true) :
    (∃ p, convert_single_gltf g binFile imgBytes jsonSer =
      .error (.valueError p (effBin g binFile).length)) ∧
    (convert_model_task name
      { dirExists := true, resolved := some ⟨g, binFile, imgBytes⟩ } jsonSer).success
      = false ∧
    (∃ p, (convert_model_task name
      { dirExists := true, resolved := some ⟨g, binFile, imgBytes⟩ } jsonSer).error =
      some (errMsg (.valueError p (effBin g binFile).length))) ∧
    (convert_model_task name
      { dirExists := true, resolved := some ⟨g, binFile, imgBytes⟩ } jsonSer).traceback.isSome
      = true ∧
    (∀ prog : Progress,
      (progressStep prog (convert_model_task name
        { dirExists := true, resolved := some ⟨g, binFile, imgBytes⟩ } jsonSer)).converted
        = prog.converted ∧
      (progressStep prog (convert_model_task name
        { dirExists := true, resolved := some ⟨g, binFile, imgBytes⟩ } jsonSer)).errors
        = prog.errors ++ [name ++ ": " ++
            ((convert_model_task name
              { dirExists := true, resolved := some ⟨g, binFile, imgBytes⟩ }
              jsonSer).error.getD "Unknown error")]) := by
  obtain ⟨p, hcd⟩ :=
    (convertDoc_run g binFile imgBytes b0 bs hbuf ht hv).1 hviol
  have hcs : convert_single_gltf g binFile imgBytes jsonSer =
      .error (.valueError p (effBin g binFile).length) := by
    unfold convert_single_gltf
    rw [hcd]
  have htask : convert_model_task name
      { dirExists := true, resolved := some ⟨g, binFile, imgBytes⟩ } jsonSer =
      taskFail name (errMsg (.valueError p (effBin g binFile).length)) := by
    rw [convert_model_task_resolved name ⟨g, binFile, imgBytes⟩ jsonSer]
    show (match convert_single_gltf g binFile imgBytes jsonSer with
      | Except.ok okr =>
        ({ model_name := name, success := true, error := none, traceback := none,
           output_size := okr.output_size, has_animations := okr.has_animations,
           aircraft_type := (parse_model_name name).1,
           airline_code := (parse_model_name name).2 } : TaskResult)
      | Except.error e => taskFail name (errMsg e)) = _
    rw [hcs]
  have hfail : (convert_model_task name
      { dirExists := true, resolved := some ⟨g, binFile, imgBytes⟩ } jsonSer).success
      = false := by
    rw [htask]
    rfl
  refine ⟨⟨p, hcs⟩, hfail, ⟨p, by rw [htask]; rfl⟩, by rw [htask]; rfl, ?_⟩
  intro prog
  constructor
  · rw [progressStep_failure prog _ hfail]
  · rw [progressStep_failure prog _ hfail, htask]
    rfl

theorem hasUvViolation_empty_of_needs (g : Gltf)
    (hv : validUvBufferViews g = true)
    (h : needsUvRead g = true) : hasUvViolation g [] = true := by
  unfold needsUvRead at h
  rw [List.any_eq_true] at h
  obtain ⟨m, hm, h⟩ := h
  rw [List.any_eq_true] at h
  obtain ⟨p0, hp0, h⟩ := h
  cases htex0 : p0.attributes.texcoord0 with
  | none =>
    rw [htex0] at h
    cases h
  | some i =>
    rw [htex0] at h
    cases hacc : g.accessors[i]? with
    | none =>
      simp only [hacc] at h
      exact absurd h (by decide)
    | some a =>
      simp only [hacc] at h
      rw [Bool.and_eq_true] at h
      obtain ⟨h5b, hcnt⟩ := h
      have h5 : a.componentType = 5122 := eq_of_beq h5b
      have hcount : 0 < a.count := of_decide_eq_true hcnt
      have hamem : a ∈ g.accessors := by
        rcases List.getElem?_eq_some.mp hacc with ⟨hlt, he⟩
        rw [← he]
        exact List.getElem_mem hlt
      obtain ⟨j, bv, hj, hbv⟩ := validUvBufferViews_spec g hv a hamem h5
      unfold hasUvViolation
      rw [List.any_eq_true]
      refine ⟨m, hm, ?_⟩
      rw [List.any_eq_true]
      refine ⟨p0, hp0, ?_⟩
      rw [htex0]
      simp only [hacc]
      rw [entryViol_resolved g.bufferViews [] a j bv h5 hj hbv]
      rw [List.any_eq_true]
      refine ⟨0, List.mem_range.mpr hcount, decide_eq_true ?_⟩
      simp

theorem needs_of_hasUvViolation_empty (g : Gltf)
    (h : hasUvViolation g [] = true) : needsUvRead g = true := by
  unfold hasUvViolation at h
  rw [List.any_eq_true] at h
  obtain ⟨m, hm, h⟩ := h
  rw [List.any_eq_true] at h
  obtain ⟨p0, hp0, h⟩ := h
  cases htex0 : p0.attributes.texcoord0 with
  | none =>
    rw [htex0] at h
    cases h
  | some i =>
    rw [htex0] at h
    cases hacc : g.accessors[i]? with
    | none =>
      simp only [hacc] at h
      exact absurd h (by decide)
    | some a =>
      simp only [hacc] at h
      unfold entryViol at h
      rw [Bool.and_eq_true] at h
      obtain ⟨h5b, h⟩ := h
      unfold needsUvRead
      rw [List.any_eq_true]
      refine ⟨m, hm, ?_⟩
      rw [List.any_eq_true]
      refine ⟨p0, hp0, ?_⟩
      rw [htex0]
      simp only [hacc]
      rw [Bool.and_eq_true]
      refine ⟨h5b, decide_eq_true ?_⟩
      cases hj : a.bufferView with
      | none =>
        rw [hj] at h
        cases h
      | some j =>
        rw [hj] at h
        cases hbv : g.bufferViews[j]? with
        | none =>
          simp only [hbv] at h
          exact absurd h (by decide)
        | some bv =>
          simp only [hbv] at h
          rw [List.any_eq_true] at h
          obtain ⟨k, hk, -⟩ := h
          rw [List.mem_range] at hk
          omega

/-- Claim C10: when the scene's first buffer entry has no `uri`,
`convert_single_gltf` does not fail on the missing buffer — it proceeds with
an empty in-memory buffer.  The document conversion then succeeds exactly
when no texture-coordinate accessor needs to read from that buffer; any
5122-typed texture-coordinate accessor with `count > 0` triggers the bounds
`ValueError` against the zero-length buffer instead. -/
theorem missing_buffer_uri_behavior (g : Gltf) (binFile : List Nat)
    (imgBytes : Nat → List Nat) (b0 : GBuffer) (bs : List GBuffer)
    (hbuf : g.buffers = b0 :: bs) (huri : b0.uri = none)
    (ht : validTexIndices g = true) (hv : validUvBufferViews g = true) :
    effBin g binFile = [] ∧
    (needsUvRead g = false → ∃ out, convertDoc g binFile imgBytes = .ok out) ∧
    (needsUvRead g = true →
      ∃ p, convertDoc g binFile imgBytes = .error (.valueError p 0)) := by
  have hh : g.buffers.head? = some b0 := by rw [hbuf]; rfl
  have hbe : effBin g binFile = [] := by
    unfold effBin
    rw [hh]
    simp [huri, truthyUri]
  have hrun := convertDoc_run g binFile imgBytes b0 bs hbuf ht hv
  rw [hbe] at hrun
  refine ⟨hbe, ?_, ?_⟩
  · intro hneeds
    apply hrun.2
    by_contra hcon
    rw [Bool.not_eq_false] at hcon
    rw [needs_of_hasUvViolation_empty g hcon] at hneeds
    cases hneeds
  · intro hneeds
    obtain ⟨p, hp⟩ := hrun.1 (hasUvViolation_empty_of_needs g hv hneeds)
    exact ⟨p, hp⟩

/-- Counterexample to C3 as stated: in this scene the only texture-coordinate
accessor is declared with component type 5126 (not 5122), `convert_single_gltf`
succeeds and leaves it untouched, so the output document contains a
texture-coordinate accessor that still carries `min`/`max` fields and a set
`normalized` flag — the claim's "every texture-coordinate accessor" is wrong;
only 5122-typed ones are normalized. -/
theorem texcoord_output_counterexample :
    convertDoc c3doc [] (fun _ => []) = .ok (c3outDoc, [], false) ∧
    (∃ m ∈ c3outDoc.meshes, ∃ p ∈ m.primitives, p.attributes.texcoord0 = some 0) ∧
    c3outDoc.accessors[0]? = some c3acc ∧
    c3acc.min = some [0] ∧ c3acc.max = some [1] ∧ c3acc.normalized = some true := by
  refine ⟨rfl, ⟨texMesh, by decide, ?_⟩, rfl, rfl, rfl, rfl⟩
  exact ⟨texPrim, by decide, rfl⟩

/-- Witness for the amended C3 at a concrete input: a 5122 texture-coordinate
accessor (here with count 0, so the conversion succeeds) is rewritten to
component type 5126 with `normalized = False` and no `min`/`max`. -/
theorem texcoord_5122_rewritten_witness :
    (convertDoc c5doc [] (fun _ => []) = .ok (c5outDoc, [], false) ∧
     referencedTex c5doc 0 = true ∧ c5doc.accessors[0]? = some c5acc ∧
     c5acc.componentType = 5122) ∧
    (∃ a', c5outDoc.accessors[0]? = some a' ∧ a'.componentType = 5126 ∧
      a'.normalized = some false ∧ a'.min = none ∧ a'.max = none) := by
  refine ⟨⟨rfl, by decide, rfl, rfl⟩, ?_⟩
  exact texcoord_5122_rewritten c5doc [] (fun _ => []) (c5outDoc, [], false) 0 c5acc
    rfl (by decide) rfl rfl

/-- Witness for C9 at a concrete input: the 5126 texture-coordinate accessor
of `c3doc` appears unchanged in the output. -/
theorem texcoord_non_5122_unchanged_witness :
    (convertDoc c3doc [] (fun _ => []) = .ok (c3outDoc, [], false) ∧
     referencedTex c3doc 0 = true ∧ c3doc.accessors[0]? = some c3acc ∧
     c3acc.componentType ≠ 5122) ∧
    c3outDoc.accessors[0]? = some c3acc := by
  refine ⟨⟨rfl, by decide, rfl, by decide⟩, ?_⟩
  exact texcoord_non_5122_unchanged c3doc [] (fun _ => []) (c3outDoc, [], false) 0 c3acc
    rfl (by decide) rfl (by decide)

/-- Witness for C2 at a concrete input: a 5122 texture-coordinate accessor
whose first read position (0 + 0 + 0·4 + 4 = 4) exceeds the loaded buffer
length (0 bytes) makes the task report failure. -/
theorem uv_bounds_error_and_task_witness :
    (c2doc.buffers = c2b0 :: [] ∧ validTexIndices c2doc = true ∧
     validUvBufferViews c2doc = true ∧
     hasUvViolation c2doc (effBin c2doc []) = true) ∧
    (convert_model_task "FSLTL_B738_AAL"
      { dirExists := true, resolved := some ⟨c2doc, [], fun _ => []⟩ }
      (fun _ => [])).success = false := by
  refine ⟨⟨rfl, by decide, by decide, by decide⟩, ?_⟩
  exact (uv_bounds_error_and_task "FSLTL_B738_AAL" c2doc [] (fun _ => []) (fun _ => [])
    c2b0 [] rfl (by decide) (by decide) (by decide)).2.1

/-- Witness for C10 at a concrete input: `c3doc` has no buffer `uri` and no
5122 texture-coordinate accessor, so the conversion succeeds on the empty
buffer. -/
theorem missing_buffer_uri_behavior_witness :
    (c3doc.buffers = c3b0 :: [] ∧ c3b0.uri = none ∧ validTexIndices c3doc = true ∧
     validUvBufferViews c3doc = true ∧ needsUvRead c3doc = false) ∧
    (∃ out, convertDoc c3doc [] (fun _ => []) = .ok out) := by
  refine ⟨⟨rfl, rfl, by decide, by decide, by decide⟩, ?_⟩
  exact (missing_buffer_uri_behavior c3doc [] (fun _ => []) c3b0 [] rfl rfl
    (by decide) (by decide)).2.1 (by decide)

end TowercabFsltl
